import Mathlib

/-!
# Hedge trading engine — shallow embedding

A shallow embedding of `trading_api.py` (together with the parts of
`game_server.py` it consults: the `profiles`/`games` directory) and proofs
about it.

Modelling conventions:
* Python `Decimal` is modelled by `ℚ`: the operations the engine performs on
  monetary amounts are `+`, `-`, `*` and one `/` (average cost), all exact on
  rationals.  (`Decimal` addition/subtraction/multiplication at the sizes the
  engine handles are exact; the context-rounding of extreme magnitudes is not
  modelled.)
* Python `dict` is modelled by an association list (`List (K × V)`) together
  with `alookup`/`aset`; `aset` replaces an existing key in place and appends
  a fresh key at the end, which is exactly CPython's insertion-order
  semantics.
* Timestamps (`datetime.utcnow()`) are modelled by an opaque `Nat` supplied
  by the caller of each operation (`now`), stored verbatim.
* An uncaught Python `KeyError` (dictionary access on a missing key) is
  modelled by the error `ApiError.keyError`; the reachability invariants show
  it never occurs.
* `str.upper` is modelled by `upper` (mapping `Char.toUpper` over the
  characters — extensionally `String.toUpper`, but defined structurally so
  that concrete runs reduce inside the kernel; the symbols the engine deals
  with are ASCII tickers).
* Python's `list.sort` is a stable sort; stable sorting against a total
  preorder has a unique result, so it is modelled by `List.insertionSort`
  (which is structurally recursive and hence kernel-computable, unlike
  `List.mergeSort`).
-/

/-- Python `str` keys / ids. -/
abbrev Decimal := ℚ

deriving instance DecidableEq for Except

/-- `class Side(str, Enum)` in `trading_api.py`. -/
inductive Side where
  | BUY
  | SELL
deriving DecidableEq, Repr

/-- `class GameStatus(str, Enum)` in `game_server.py`. -/
inductive GameStatus where
  | PENDING
  | IN_PROGRESS
  | COMPLETED
deriving DecidableEq, Repr

/-- The failure kinds raised by the trading endpoints (`HTTPException`s),
labelled by what the `detail` string distinguishes. `keyError` models an
uncaught Python `KeyError` (a 500, not an `HTTPException`). -/
inductive ApiError where
  | playerNotFound
  | gameNotFound
  | tickerNotFound
  | tradingNotAllowed
  | insufficientPosition
  | insufficientCash
  | noPriceAvailable
  | tickerExists
  | keyError
deriving DecidableEq, Repr

/-- The HTTP status code each failure is surfaced with. -/
def ApiError.status : ApiError → Nat
  | .playerNotFound => 404
  | .gameNotFound => 404
  | .tickerNotFound => 404
  | .tradingNotAllowed => 400
  | .insufficientPosition => 400
  | .insufficientCash => 400
  | .noPriceAvailable => 400
  | .tickerExists => 409
  | .keyError => 500

/-- A row of the `tickers` dict. -/
structure Ticker where
  id : Nat
  symbol : String
  name : Option String
  sector : Option String
deriving DecidableEq, Repr

/-- A row of the `price_snapshots` list. -/
structure Snapshot where
  id : Nat
  game_id : Nat
  round_id : Option Nat
  ticker_id : Nat
  price : Decimal
  taken_at : Nat
deriving DecidableEq, Repr

/-- A row of the `trades` list. -/
structure Trade where
  id : Nat
  game_id : Nat
  participant_key : String
  round_id : Option Nat
  ticker_id : Nat
  side : Side
  quantity : Decimal
  price : Decimal
  executed_at : Nat
deriving DecidableEq, Repr

/-- The fields of a `games[gid]` row that the trading engine reads. -/
structure Game where
  status : GameStatus
  starting_cash : Decimal
deriving DecidableEq, Repr

/-- First-match lookup in an association list (Python `d.get(k)` /
`k in d`, keys being unique by construction of `aset`). -/
def alookup {K V : Type} [DecidableEq K] (m : List (K × V)) (k : K) : Option V :=
  (m.find? (fun kv => decide (kv.1 = k))).map (fun kv => kv.2)

/-- Python `d[k] = v`: replace in place if the key exists, else append
(insertion order preserved). -/
def aset {K V : Type} [DecidableEq K] : List (K × V) → K → V → List (K × V)
  | [], k, v => [(k, v)]
  | (k', v') :: rest, k, v =>
    if k' = k then (k, v) :: rest else (k', v') :: aset rest k v

/-- The whole mutable store of `trading_api.py` plus the `profiles`/`games`
directory of `game_server.py` that it imports. -/
structure TradingState where
  tickers : List (Nat × Ticker)
  sym_index : List (String × Nat)
  ticker_id_seq : Nat
  price_snapshots : List Snapshot
  ps_id_seq : Nat
  trades : List Trade
  trade_id_seq : Nat
  participants_cash : List (String × Decimal)
  profiles : List String
  games : List (Nat × Game)
deriving DecidableEq, Repr

/-- The empty store (module import time, before any endpoint ran). -/
def TradingState.init : TradingState :=
  { tickers := []
    sym_index := []
    ticker_id_seq := 1
    price_snapshots := []
    ps_id_seq := 1
    trades := []
    trade_id_seq := 1
    participants_cash := []
    profiles := []
    games := [] }

/-- `_participant_key`: `f"{game_id}:{player_id}"`. -/
def participant_key (game_id : Nat) (player_id : String) : String :=
  toString game_id ++ ":" ++ player_id

/-- Python `str.upper()` (ASCII): map `Char.toUpper` over the characters. -/
def upper (s : String) : String :=
  ⟨s.data.map Char.toUpper⟩

/-- `_require_ticker`: resolve a symbol case-insensitively.  The Python
guard `if not sid` is truthiness: it fires on `None` and on the id `0`. -/
def require_ticker (sym_index : List (String × Nat)) (tickers : List (Nat × Ticker))
    (symbol : String) : Except ApiError (Nat × Ticker) :=
  match alookup sym_index (upper symbol) with
  | none => .error .tickerNotFound
  | some sid =>
    if sid = 0 then .error .tickerNotFound
    else
      match alookup tickers sid with
      | none => .error .keyError
      | some tk => .ok (sid, tk)

/-- `_latest_price`: scan the snapshot list most-recently-inserted-first for
a `(game, ticker, round)` match when a round is given, falling back to the
most recent `(game, ticker)` match. -/
def latest_price (price_snapshots : List Snapshot) (game_id : Nat) (ticker_id : Nat)
    (round_id : Option Nat) : Except ApiError Snapshot :=
  let best :=
    match round_id with
    | some rid =>
      price_snapshots.reverse.find? (fun (row : Snapshot) =>
        decide (row.game_id = game_id ∧ row.ticker_id = ticker_id ∧ row.round_id = some rid))
    | none => none
  match best with
  | some b => .ok b
  | none =>
    match price_snapshots.reverse.find? (fun (row : Snapshot) =>
        decide (row.game_id = game_id ∧ row.ticker_id = ticker_id)) with
    | some b => .ok b
    | none => .error .noPriceAvailable

/-- One iteration of the `for t in trades` loop of `_position_quantity`. -/
def position_step (pkey : String) (ticker_id : Nat) (qty : Decimal) (t : Trade) : Decimal :=
  if t.participant_key = pkey ∧ t.ticker_id = ticker_id then
    match t.side with
    | .BUY => qty + t.quantity
    | .SELL => qty - t.quantity
  else qty

/-- `_position_quantity`: replay the trade log, netting BUY − SELL. -/
def position_quantity (trades : List Trade) (pkey : String) (ticker_id : Nat) : Decimal :=
  trades.foldl (position_step pkey ticker_id) 0

/-- `_get_or_create_participant`, given the game row `g = games[game_id]`
(the callers look it up first): on first access, initialize the cash balance
to the game's starting cash. -/
def get_or_create_participant (s : TradingState) (game_id : Nat) (player_id : String)
    (g : Game) : TradingState :=
  if (alookup s.participants_cash (participant_key game_id player_id)).isSome then s
  else
    { s with
        participants_cash :=
          aset s.participants_cash (participant_key game_id player_id) g.starting_cash }

/-- `create_ticker` (POST /tickers). -/
def create_ticker (s : TradingState) (symbol : String) (name sector : Option String) :
    TradingState × Except ApiError Ticker :=
  let sym := upper symbol
  match alookup s.sym_index sym with
  | some _ => (s, .error .tickerExists)
  | none =>
    let tid := s.ticker_id_seq
    let tk : Ticker := ⟨tid, sym, name, sector⟩
    ({ s with
        tickers := aset s.tickers tid tk
        sym_index := aset s.sym_index sym tid
        ticker_id_seq := tid + 1 },
      .ok tk)

/-- `add_price_snapshot` (POST /price_snapshots).  `taken_at` defaults to
the current time when omitted. -/
def add_price_snapshot (s : TradingState) (now : Nat) (game_id : Nat)
    (ticker_symbol : String) (price : Decimal) (round_id : Option Nat)
    (taken_at : Option Nat) : TradingState × Except ApiError Snapshot :=
  if (alookup s.games game_id).isNone then (s, .error .gameNotFound)
  else
    match require_ticker s.sym_index s.tickers ticker_symbol with
    | .error e => (s, .error e)
    | .ok (tid, _) =>
      let row : Snapshot :=
        ⟨s.ps_id_seq, game_id, round_id, tid, price, taken_at.getD now⟩
      ({ s with
          price_snapshots := s.price_snapshots ++ [row]
          ps_id_seq := s.ps_id_seq + 1 },
        .ok row)

/-- What `get_price` (GET /price) returns. -/
structure PriceResponse where
  ticker_id : Nat
  symbol : String
  price : Decimal
  taken_at : Nat
deriving DecidableEq, Repr

/-- `get_price` (GET /price): resolve the ticker, then the latest price.
It never consults the `games` directory. -/
def get_price (s : TradingState) (symbol : String) (game_id : Nat)
    (round_id : Option Nat) : Except ApiError PriceResponse :=
  match require_ticker s.sym_index s.tickers symbol with
  | .error e => .error e
  | .ok (tid, tk) =>
    match latest_price s.price_snapshots game_id tid round_id with
    | .error e => .error e
    | .ok snap => .ok ⟨tid, tk.symbol, snap.price, snap.taken_at⟩

/-- The body of POST /trade. -/
structure PlaceTradeRequest where
  game_id : Nat
  player_id : String
  ticker_symbol : String
  side : Side
  quantity : Decimal
  round_id : Option Nat
deriving DecidableEq, Repr

/-- The committing tail of `place_trade` (line "executed_at = ..." on): all
checks passed; append the trade row and settle cash (debit on BUY, credit on
SELL). -/
def place_trade_exec (s1 : TradingState) (now : Nat) (body : PlaceTradeRequest)
    (tid : Nat) (price cash : Decimal) : TradingState × Except ApiError Trade :=
  let row : Trade :=
    ⟨s1.trade_id_seq, body.game_id, participant_key body.game_id body.player_id,
      body.round_id, tid, body.side, body.quantity, price, now⟩
  let s2 :=
    { s1 with
        trades := s1.trades ++ [row]
        trade_id_seq := s1.trade_id_seq + 1 }
  if body.side = .BUY then
    ({ s2 with
        participants_cash :=
          aset s2.participants_cash (participant_key body.game_id body.player_id)
            (cash - price * body.quantity) },
      .ok row)
  else
    ({ s2 with
        participants_cash :=
          aset s2.participants_cash (participant_key body.game_id body.player_id)
            (cash + price * body.quantity) },
      .ok row)

/-- `place_trade` after the player/game/status validations and the lazy
participant creation: resolve the ticker, price the trade, run the position
(SELL) and cash (BUY) checks, then commit.  Every failing branch returns the
incoming store `s1` unchanged. -/
def place_trade_core (s1 : TradingState) (now : Nat) (body : PlaceTradeRequest) :
    TradingState × Except ApiError Trade :=
  match require_ticker s1.sym_index s1.tickers body.ticker_symbol with
  | .error e => (s1, .error e)
  | .ok (tid, _tk) =>
    match latest_price s1.price_snapshots body.game_id tid body.round_id with
    | .error e => (s1, .error e)
    | .ok snap =>
      if body.side = .SELL ∧
          position_quantity s1.trades (participant_key body.game_id body.player_id) tid -
              body.quantity < 0 then
        (s1, .error .insufficientPosition)
      else
        match alookup s1.participants_cash (participant_key body.game_id body.player_id) with
        | none => (s1, .error .keyError)
        | some cash =>
          if body.side = .BUY ∧ cash < snap.price * body.quantity then
            (s1, .error .insufficientCash)
          else
            place_trade_exec s1 now body tid snap.price cash

/-- `place_trade` (POST /trade), step for step:
validate player/game, validate game status, lazily create the participant
(a mutation that is NOT rolled back by later failures), then
`place_trade_core`. -/
def place_trade (s : TradingState) (now : Nat) (body : PlaceTradeRequest) :
    TradingState × Except ApiError Trade :=
  if body.player_id ∉ s.profiles then (s, .error .playerNotFound)
  else
    match alookup s.games body.game_id with
    | none => (s, .error .gameNotFound)
    | some g =>
      if ¬(g.status = .PENDING ∨ g.status = .IN_PROGRESS) then
        (s, .error .tradingNotAllowed)
      else
        place_trade_core (get_or_create_participant s body.game_id body.player_id g) now body

/-- One row of the GET /trades response. -/
structure TradeListItem where
  id : Nat
  round_id : Option Nat
  symbol : String
  side : Side
  quantity : Decimal
  price : Decimal
  executed_at : Nat
deriving DecidableEq, Repr

/-- The filter of `list_trades`: `game_id` and participant must match, and
the round must match when one is requested (`round_id is None or ...`). -/
def trade_matches (game_id : Nat) (pkey : String) (round_id : Option Nat)
    (t : Trade) : Bool :=
  decide (t.game_id = game_id ∧ t.participant_key = pkey ∧
    (round_id = none ∨ t.round_id = round_id))

/-- The sort order of `list_trades`: `executed_at` descending;
`list.sort(key=..., reverse=True)` is stable, so ties keep insertion order. -/
def executed_at_desc (a b : Trade) : Prop :=
  b.executed_at ≤ a.executed_at

instance : DecidableRel executed_at_desc :=
  fun a b => inferInstanceAs (Decidable (b.executed_at ≤ a.executed_at))

instance : IsTotal Trade executed_at_desc :=
  ⟨fun a b => (Nat.le_total b.executed_at a.executed_at).imp id id⟩

instance : IsTrans Trade executed_at_desc :=
  ⟨fun _ _ _ hab hbc => le_trans hbc hab⟩

/-- How `list_trades` renders one trade row (unknown tickers as "?"). -/
def trade_list_item (tickers : List (Nat × Ticker)) (r : Trade) : TradeListItem :=
  ⟨r.id, r.round_id, ((alookup tickers r.ticker_id).map Ticker.symbol).getD "?",
    r.side, r.quantity, r.price, r.executed_at⟩

/-- `list_trades` (GET /trades): filter, stable-sort by `executed_at`
descending, window `rows[offset : offset+limit]`, render (unknown tickers
render as "?"). -/
def list_trades (s : TradingState) (game_id : Nat) (player_id : String)
    (round_id : Option Nat) (limit offset : Nat) :
    TradingState × Except ApiError (List TradeListItem) :=
  if player_id ∉ s.profiles then (s, .error .playerNotFound)
  else
    match alookup s.games game_id with
    | none => (s, .error .gameNotFound)
    | some g =>
      let pkey := participant_key game_id player_id
      let s1 := get_or_create_participant s game_id player_id g
      let rows := s1.trades.filter (trade_matches game_id pkey round_id)
      let sorted := rows.insertionSort executed_at_desc
      let window := (sorted.drop offset).take limit
      (s1, .ok (window.map (trade_list_item s1.tickers)))

/-- The per-ticker accumulator of `get_portfolio` (`lots[tid]`). -/
structure Lot where
  qty : Decimal
  buy_cost : Decimal
deriving DecidableEq, Repr

/-- One iteration of the `for t in trades` loop of `get_portfolio`:
`setdefault` then accumulate quantity (and, on BUY only, cost). -/
def lots_step (game_id : Nat) (pkey : String) (acc : List (Nat × Lot)) (t : Trade) :
    List (Nat × Lot) :=
  if t.game_id = game_id ∧ t.participant_key = pkey then
    let cur := (alookup acc t.ticker_id).getD ⟨0, 0⟩
    match t.side with
    | .BUY => aset acc t.ticker_id ⟨cur.qty + t.quantity, cur.buy_cost + t.quantity * t.price⟩
    | .SELL => aset acc t.ticker_id ⟨cur.qty - t.quantity, cur.buy_cost⟩
  else acc

/-- The whole `lots` dict after the replay loop. -/
def build_lots (trades : List Trade) (game_id : Nat) (pkey : String) : List (Nat × Lot) :=
  trades.foldl (lots_step game_id pkey) []

/-- One row of the portfolio response. -/
structure Position where
  ticker_id : Nat
  symbol : String
  quantity : Decimal
  avg_price : Decimal
  market_price : Decimal
  market_value : Decimal
  unrealized_pnl : Decimal
deriving DecidableEq, Repr

/-- The GET /portfolio response. -/
structure PortfolioResponse where
  cash_balance : Decimal
  positions : List Position
  equity : Decimal
  unrealized_pnl_total : Decimal
deriving DecidableEq, Repr

/-- The `for tid, agg in lots.items()` loop of `get_portfolio`: skip
zero-quantity lots, price each remaining one (failing the whole computation
when no snapshot exists), and accumulate positions, the running
`unreal_total` and the running `equity` (which starts at the cash balance). -/
def build_positions (snaps : List Snapshot) (tickers : List (Nat × Ticker))
    (game_id : Nat) : List (Nat × Lot) → List Position × Decimal × Decimal →
    Except ApiError (List Position × Decimal × Decimal)
  | [], acc => .ok acc
  | (tid, agg) :: rest, acc =>
    if agg.qty = 0 then build_positions snaps tickers game_id rest acc
    else
      let avg_price := agg.buy_cost / agg.qty
      match latest_price snaps game_id tid none with
      | .error e => .error e
      | .ok snap =>
        match alookup tickers tid with
        | none => .error .keyError
        | some tk =>
          let mkt_price := snap.price
          let mkt_val := agg.qty * mkt_price
          let unreal := (mkt_price - avg_price) * agg.qty
          build_positions snaps tickers game_id rest
            (acc.1 ++ [⟨tid, tk.symbol, agg.qty, avg_price, mkt_price, mkt_val, unreal⟩],
              acc.2.1 + unreal, acc.2.2 + mkt_val)

/-- Lexicographic (code-point) comparison of character lists: the order
Python uses on `str`.  Structurally recursive, so concrete sorts reduce in
the kernel. -/
def chars_le : List Char → List Char → Bool
  | [], _ => true
  | _ :: _, [] => false
  | a :: as, b :: bs => if a < b then true else if b < a then false else chars_le as bs

/-- The sort order of portfolio positions: symbol ascending (stable). -/
def symbol_asc (a b : Position) : Prop :=
  a.symbol ≤ b.symbol

lemma chars_le_iff : ∀ x y : List Char, chars_le x y = true ↔ ¬y < x
  | [], y => by
    simp only [chars_le]
    exact iff_of_true trivial (fun h => by cases h)
  | a :: as, [] => by
    simp only [chars_le, Bool.false_eq_true, false_iff, not_not]
    exact List.Lex.nil
  | a :: as, b :: bs => by
    simp only [chars_le]
    by_cases hab : a < b
    · simp only [if_pos hab, true_iff]
      intro h
      cases h with
      | cons h' => exact lt_irrefl _ hab
      | rel h' => exact lt_asymm hab h'
    · by_cases hba : b < a
      · simp only [if_neg hab, if_pos hba, Bool.false_eq_true, false_iff, not_not]
        exact List.Lex.rel hba
      · have heq : a = b := le_antisymm (le_of_not_lt hba) (le_of_not_lt hab)
        subst heq
        simp only [if_neg hab, if_neg hba, chars_le_iff as bs]
        constructor
        · intro h hlt
          cases hlt with
          | cons h' => exact h h'
          | rel h' => exact lt_irrefl _ h'
        · intro h hlt
          exact h (List.Lex.cons hlt)

/-- String `≤` agrees with the structural lexicographic comparison of the
character lists. -/
lemma string_le_iff_chars_le (a b : String) :
    a ≤ b ↔ chars_le a.data b.data = true := by
  rw [chars_le_iff]
  exact not_congr String.lt_iff_toList_lt

instance : DecidableRel symbol_asc :=
  fun a b =>
    decidable_of_iff (chars_le a.symbol.data b.symbol.data = true)
      (string_le_iff_chars_le a.symbol b.symbol).symm

/-- `get_portfolio` (GET /portfolio). -/
def get_portfolio (s : TradingState) (game_id : Nat) (player_id : String) :
    TradingState × Except ApiError PortfolioResponse :=
  if player_id ∉ s.profiles then (s, .error .playerNotFound)
  else
    match alookup s.games game_id with
    | none => (s, .error .gameNotFound)
    | some g =>
      let pkey := participant_key game_id player_id
      let s1 := get_or_create_participant s game_id player_id g
      match alookup s1.participants_cash pkey with
      | none => (s1, .error .keyError)
      | some cash =>
        let lots := build_lots s1.trades game_id pkey
        match build_positions s1.price_snapshots s1.tickers game_id lots ([], 0, cash) with
        | .error e => (s1, .error e)
        | .ok (ps, unreal_total, equity) =>
          (s1, .ok ⟨cash, ps.insertionSort symbol_asc, equity, unreal_total⟩)

/-! ## Operation sequences and reachability

`Step s s'` holds when one server operation can turn the store `s` into
`s'`.  It covers the trading endpoints (including their FAILING runs, which
may still have lazily created a participant) and the directory operations of
`game_server.py` that touch `profiles`/`games` (profile CRUD, game CRUD, the
matchmaking status change, the startup test-data loader).  Request
validations enforced by the pydantic models appear as hypotheses where the
invariants depend on them (`starting_cash > 0` from `GameCreate`,
`price > 0` from `PriceSnapshotCreate`, `quantity > 0` from
`PlaceTradeRequest`); the remaining validations are dropped, which only
enlarges the set of reachable states. -/
inductive Step : TradingState → TradingState → Prop where
  | profileAdded (s : TradingState) (pid : String) :
      Step s { s with profiles := s.profiles ++ [pid] }
  | profileDeleted (s : TradingState) (pid : String) :
      Step s { s with profiles := s.profiles.erase pid }
  | gameAdded (s : TradingState) (gid : Nat) (g : Game)
      (hcash : 0 < g.starting_cash) :
      Step s { s with games := aset s.games gid g }
  | gameStatusChanged (s : TradingState) (gid : Nat) (g : Game) (st : GameStatus)
      (hmem : alookup s.games gid = some g) :
      Step s { s with games := aset s.games gid { g with status := st } }
  | gameDeleted (s : TradingState) (gid : Nat) :
      Step s { s with games := s.games.filter (fun kv => decide (kv.1 ≠ gid)) }
  | tickerCreated (s : TradingState) (symbol : String) (name sector : Option String) :
      Step s (create_ticker s symbol name sector).1
  | snapshotAdded (s : TradingState) (now game_id : Nat) (ticker_symbol : String)
      (price : Decimal) (round_id : Option Nat) (taken_at : Option Nat)
      (hprice : 0 < price) :
      Step s (add_price_snapshot s now game_id ticker_symbol price round_id taken_at).1
  | tradePlaced (s : TradingState) (now : Nat) (body : PlaceTradeRequest)
      (hqty : 0 < body.quantity) :
      Step s (place_trade s now body).1
  | tradesListed (s : TradingState) (game_id : Nat) (player_id : String)
      (round_id : Option Nat) (limit offset : Nat) :
      Step s (list_trades s game_id player_id round_id limit offset).1
  | portfolioViewed (s : TradingState) (game_id : Nat) (player_id : String) :
      Step s (get_portfolio s game_id player_id).1

/-- A store is reachable when some sequence of operations produces it from
the empty store. -/
def Reachable (s : TradingState) : Prop :=
  Relation.ReflTransGen Step TradingState.init s

/-- Every game row carries a positive starting cash (all creation paths do:
`GameCreate` validates `gt=0`, and the startup loader uses positive
literals). -/
def GamesCashPos (s : TradingState) : Prop :=
  ∀ kv ∈ s.games, 0 < (kv.2).starting_cash

/-- Every stored snapshot has a positive price (`PriceSnapshotCreate`
validates `gt=0`). -/
def SnapshotPricesPos (s : TradingState) : Prop :=
  ∀ row ∈ s.price_snapshots, 0 < row.price

/-- Every ledger balance is non-negative. -/
def CashNonneg (s : TradingState) : Prop :=
  ∀ kv ∈ s.participants_cash, 0 ≤ kv.2

/-- Every derived position is non-negative. -/
def PositionsNonneg (s : TradingState) : Prop :=
  ∀ (pkey : String) (ticker_id : Nat), 0 ≤ position_quantity s.trades pkey ticker_id

/-- The ticker registry is coherent: every symbol-index entry points at a
stored ticker with that (uppercase-canonical) symbol and a positive id, and
every stored ticker is indexed. -/
def RegistryOk (s : TradingState) : Prop :=
  (∀ kv ∈ s.sym_index, 1 ≤ kv.2 ∧
    ∃ tk, alookup s.tickers kv.2 = some tk ∧ tk.symbol = kv.1) ∧
  (∀ kv ∈ s.tickers, (alookup s.sym_index (kv.2).symbol).isSome)

/-- Ticker ids stay below the sequence counter (so freshly assigned ids are
really fresh), and the counter stays positive. -/
def SeqOk (s : TradingState) : Prop :=
  1 ≤ s.ticker_id_seq ∧
  (∀ kv ∈ s.tickers, kv.1 < s.ticker_id_seq) ∧
  (∀ kv ∈ s.sym_index, kv.2 < s.ticker_id_seq)

/-- Every recorded trade references a stored ticker. -/
def TradesTickersOk (s : TradingState) : Prop :=
  ∀ t ∈ s.trades, (alookup s.tickers t.ticker_id).isSome

/-- The conjunction of all maintained invariants. -/
def StoreInv (s : TradingState) : Prop :=
  GamesCashPos s ∧ SnapshotPricesPos s ∧ CashNonneg s ∧ PositionsNonneg s ∧
    RegistryOk s ∧ SeqOk s ∧ TradesTickersOk s

/-! ## Association-list lemmas -/

lemma alookup_cons {K V : Type} [DecidableEq K] (kv : K × V) (m : List (K × V)) (k : K) :
    alookup (kv :: m) k = if kv.1 = k then some kv.2 else alookup m k := by
  by_cases h : kv.1 = k <;> simp [alookup, List.find?_cons, h]

lemma alookup_aset {K V : Type} [DecidableEq K] (m : List (K × V)) (k : K) (v : V) (k' : K) :
    alookup (aset m k v) k' = if k' = k then some v else alookup m k' := by
  induction m with
  | nil =>
    simp only [aset]
    rw [alookup_cons]
    by_cases h : k = k'
    · subst h
      simp
    · rw [if_neg h, if_neg (fun h' => h h'.symm)]
  | cons kv rest ih =>
    obtain ⟨k₀, v₀⟩ := kv
    by_cases h₀ : k₀ = k
    · subst h₀
      simp only [aset]
      rw [if_pos trivial, alookup_cons, alookup_cons]
      by_cases h : k₀ = k'
      · subst h
        simp
      · rw [if_neg h, if_neg (fun h' => h h'.symm), if_neg h]
    · simp only [aset, if_neg h₀]
      rw [alookup_cons, alookup_cons, ih]
      by_cases h : k' = k
      · subst h
        have h₀' : ¬k₀ = k' := h₀
        rw [if_neg h₀', if_pos rfl, if_pos rfl]
      · simp only [if_neg h]

lemma mem_aset {K V : Type} [DecidableEq K] {m : List (K × V)} {k : K} {v : V} {kv : K × V}
    (h : kv ∈ aset m k v) : kv = (k, v) ∨ kv ∈ m := by
  induction m with
  | nil => simpa [aset] using h
  | cons kv₀ rest ih =>
    obtain ⟨k₀, v₀⟩ := kv₀
    by_cases h₀ : k₀ = k
    · subst h₀
      rcases (by simpa [aset] using h : kv = (k₀, v) ∨ kv ∈ rest) with h' | h'
      · exact .inl h'
      · exact .inr (.tail _ h')
    · rcases (by simpa [aset, h₀] using h : kv = (k₀, v₀) ∨ kv ∈ aset rest k v) with h' | h'
      · exact .inr (h' ▸ .head rest)
      · rcases ih h' with h'' | h''
        · exact .inl h''
        · exact .inr (.tail _ h'')

lemma alookup_mem {K V : Type} [DecidableEq K] {m : List (K × V)} {k : K} {v : V}
    (h : alookup m k = some v) : (k, v) ∈ m := by
  induction m with
  | nil => simp [alookup] at h
  | cons kv rest ih =>
    rw [alookup_cons] at h
    by_cases h₀ : kv.1 = k
    · rw [if_pos h₀] at h
      obtain rfl : kv.2 = v := by injection h
      obtain ⟨k₀, v₀⟩ := kv
      obtain rfl : k₀ = k := h₀
      exact .head rest
    · rw [if_neg h₀] at h
      exact .tail _ (ih h)

lemma alookup_eq_none_iff {K V : Type} [DecidableEq K] (m : List (K × V)) (k : K) :
    alookup m k = none ↔ ∀ kv ∈ m, kv.1 ≠ k := by
  induction m with
  | nil => simp [alookup]
  | cons kv rest ih =>
    rw [alookup_cons]
    by_cases h₀ : kv.1 = k <;> simp [h₀, ih]

/-! ## `find?` on a reversed list: "most recently inserted match" -/

/-- `l.reverse.find? p` returns `x` exactly when `x` is the LAST element of
`l` satisfying `p`: `l` splits as `l₁ ++ x :: l₂` with nothing in the suffix
`l₂` matching. -/
lemma find?_reverse_eq_some {α : Type} {p : α → Bool} {l : List α} {x : α} :
    l.reverse.find? p = some x ↔
      p x = true ∧ ∃ l₁ l₂, l = l₁ ++ x :: l₂ ∧ ∀ y ∈ l₂, ¬p y = true := by
  rw [List.find?_eq_some]
  constructor
  · rintro ⟨hp, as, bs, hrev, hall⟩
    refine ⟨hp, bs.reverse, as.reverse, ?_, ?_⟩
    · have := congrArg List.reverse hrev
      simpa [List.reverse_append] using this
    · intro y hy
      have := hall y (by simpa using hy)
      simpa using this
  · rintro ⟨hp, l₁, l₂, rfl, hall⟩
    refine ⟨hp, l₂.reverse, l₁.reverse, by simp [List.reverse_append], ?_⟩
    intro a ha
    have := hall a (by simpa using ha)
    simpa using this

lemma find?_reverse_eq_none {α : Type} {p : α → Bool} {l : List α} :
    l.reverse.find? p = none ↔ ∀ y ∈ l, ¬p y = true := by
  rw [List.find?_eq_none]
  constructor
  · intro h y hy
    exact h y (by simpa using hy)
  · intro h y hy
    exact h y (by simpa using hy)

/-! ## `latest_price` characterization -/

/-- The round-specific match predicate of `_latest_price`. -/
def snap_match3 (game_id ticker_id rid : Nat) (row : Snapshot) : Bool :=
  decide (row.game_id = game_id ∧ row.ticker_id = ticker_id ∧ row.round_id = some rid)

/-- The fallback match predicate of `_latest_price` (game and ticker only). -/
def snap_match2 (game_id ticker_id : Nat) (row : Snapshot) : Bool :=
  decide (row.game_id = game_id ∧ row.ticker_id = ticker_id)

lemma snap_match3_imp_match2 {game_id ticker_id rid : Nat} {row : Snapshot}
    (h : snap_match3 game_id ticker_id rid row = true) :
    snap_match2 game_id ticker_id row = true := by
  simp only [snap_match3, snap_match2, decide_eq_true_eq] at h ⊢
  exact ⟨h.1, h.2.1⟩

lemma latest_price_none_def (snaps : List Snapshot) (g tid : Nat) :
    latest_price snaps g tid none =
      match snaps.reverse.find? (snap_match2 g tid) with
      | some b => .ok b
      | none => .error .noPriceAvailable := rfl

lemma latest_price_some_def (snaps : List Snapshot) (g tid rid : Nat) :
    latest_price snaps g tid (some rid) =
      match snaps.reverse.find? (snap_match3 g tid rid) with
      | some b => .ok b
      | none =>
        match snaps.reverse.find? (snap_match2 g tid) with
        | some b => .ok b
        | none => .error .noPriceAvailable := rfl

/-- A successful price lookup returns a stored snapshot matching the game
and ticker. -/
lemma latest_price_ok_mem {snaps : List Snapshot} {g tid : Nat} {r : Option Nat}
    {x : Snapshot} (h : latest_price snaps g tid r = .ok x) :
    x ∈ snaps ∧ snap_match2 g tid x = true := by
  cases r with
  | none =>
    rw [latest_price_none_def] at h
    cases hf : snaps.reverse.find? (snap_match2 g tid) with
    | none => rw [hf] at h; exact absurd h (by simp)
    | some b =>
      rw [hf] at h
      obtain rfl : b = x := by injection h
      exact ⟨by simpa using List.mem_of_find?_eq_some hf,
        List.find?_some hf⟩
  | some rid =>
    rw [latest_price_some_def] at h
    cases hf : snaps.reverse.find? (snap_match3 g tid rid) with
    | some b =>
      rw [hf] at h
      obtain rfl : b = x := by injection h
      exact ⟨by simpa using List.mem_of_find?_eq_some hf,
        snap_match3_imp_match2 (List.find?_some hf)⟩
    | none =>
      rw [hf] at h
      cases hf2 : snaps.reverse.find? (snap_match2 g tid) with
      | none => rw [hf2] at h; exact absurd h (by simp)
      | some b =>
        rw [hf2] at h
        obtain rfl : b = x := by injection h
        exact ⟨by simpa using List.mem_of_find?_eq_some hf2,
          List.find?_some hf2⟩

/-- A failed price lookup is always `noPriceAvailable`, and happens exactly
when no stored snapshot matches the game and ticker. -/
lemma latest_price_error_iff (snaps : List Snapshot) (g tid : Nat) (r : Option Nat)
    (e : ApiError) :
    latest_price snaps g tid r = .error e ↔
      e = .noPriceAvailable ∧ ∀ row ∈ snaps, snap_match2 g tid row ≠ true := by
  constructor
  · intro h
    have key : snaps.reverse.find? (snap_match2 g tid) = none → ∀ row ∈ snaps, snap_match2 g tid row ≠ true := by
      intro hf
      exact find?_reverse_eq_none.mp hf
    cases r with
    | none =>
      rw [latest_price_none_def] at h
      cases hf : snaps.reverse.find? (snap_match2 g tid) with
      | some b => rw [hf] at h; exact absurd h (by simp)
      | none =>
        rw [hf] at h
        refine ⟨?_, key hf⟩
        injection h with h'
        exact h'.symm
    | some rid =>
      rw [latest_price_some_def] at h
      cases hf3 : snaps.reverse.find? (snap_match3 g tid rid) with
      | some b => rw [hf3] at h; exact absurd h (by simp)
      | none =>
        rw [hf3] at h
        cases hf : snaps.reverse.find? (snap_match2 g tid) with
        | some b => rw [hf] at h; exact absurd h (by simp)
        | none =>
          rw [hf] at h
          refine ⟨?_, key hf⟩
          injection h with h'
          exact h'.symm
  · rintro ⟨rfl, hall⟩
    have hf2 : snaps.reverse.find? (snap_match2 g tid) = none :=
      find?_reverse_eq_none.mpr hall
    have hf3 : ∀ rid, snaps.reverse.find? (snap_match3 g tid rid) = none := by
      intro rid
      refine find?_reverse_eq_none.mpr (fun y hy h3 => ?_)
      exact hall y hy (snap_match3_imp_match2 h3)
    cases r with
    | none => rw [latest_price_none_def, hf2]
    | some rid => rw [latest_price_some_def, hf3 rid, hf2]

/-! ## `position_quantity` lemmas -/

lemma position_quantity_append (ts : List Trade) (t : Trade) (pk : String) (tid : Nat) :
    position_quantity (ts ++ [t]) pk tid =
      position_step pk tid (position_quantity ts pk tid) t := by
  unfold position_quantity
  rw [List.foldl_append]
  rfl

lemma foldl_position_step_shift (ts : List Trade) (pk : String) (tid : Nat) (q : Decimal) :
    ts.foldl (position_step pk tid) q = q + position_quantity ts pk tid := by
  induction ts generalizing q with
  | nil => simp [position_quantity]
  | cons t ts ih =>
    have h2 : position_quantity (t :: ts) pk tid =
        position_step pk tid 0 t + position_quantity ts pk tid := by
      unfold position_quantity
      rw [List.foldl_cons, ih]
      rfl
    rw [List.foldl_cons, ih, h2]
    unfold position_step
    by_cases h : t.participant_key = pk ∧ t.ticker_id = tid
    · simp only [if_pos h]
      cases t.side <;> ring
    · simp only [if_neg h]
      ring

lemma position_quantity_cons (t : Trade) (ts : List Trade) (pk : String) (tid : Nat) :
    position_quantity (t :: ts) pk tid =
      position_step pk tid 0 t + position_quantity ts pk tid := by
  unfold position_quantity
  rw [List.foldl_cons, foldl_position_step_shift]
  rfl

/-- `position_quantity` is the sum of BUY quantities minus the sum of SELL
quantities over the participant's trades in the ticker. -/
lemma position_quantity_eq_sum (ts : List Trade) (pk : String) (tid : Nat) :
    position_quantity ts pk tid =
      ((ts.filter (fun t => decide (t.participant_key = pk ∧ t.ticker_id = tid ∧ t.side = .BUY))).map
          Trade.quantity).sum -
        ((ts.filter (fun t => decide (t.participant_key = pk ∧ t.ticker_id = tid ∧ t.side = .SELL))).map
          Trade.quantity).sum := by
  induction ts with
  | nil => simp [position_quantity]
  | cons t ts ih =>
    rw [position_quantity_cons, ih]
    by_cases h : t.participant_key = pk ∧ t.ticker_id = tid
    · cases hs : t.side with
      | BUY =>
        rw [List.filter_cons_of_pos (by simp [h, hs]),
          List.filter_cons_of_neg (by simp [h, hs])]
        simp only [position_step, if_pos h, hs, List.map_cons, List.sum_cons]
        ring
      | SELL =>
        rw [List.filter_cons_of_neg (by simp [h, hs]),
          List.filter_cons_of_pos (by simp [h, hs])]
        simp only [position_step, if_pos h, hs, List.map_cons, List.sum_cons]
        ring
    · rw [List.filter_cons_of_neg (by simp [h]; tauto),
        List.filter_cons_of_neg (by simp [h]; tauto)]
      simp only [position_step, if_neg h]
      ring

/-! ## `get_or_create_participant` lemmas -/

lemma gocp_tickers (s : TradingState) (gid : Nat) (pid : String) (g : Game) :
    (get_or_create_participant s gid pid g).tickers = s.tickers := by
  unfold get_or_create_participant
  split <;> rfl

lemma gocp_sym_index (s : TradingState) (gid : Nat) (pid : String) (g : Game) :
    (get_or_create_participant s gid pid g).sym_index = s.sym_index := by
  unfold get_or_create_participant
  split <;> rfl

lemma gocp_ticker_id_seq (s : TradingState) (gid : Nat) (pid : String) (g : Game) :
    (get_or_create_participant s gid pid g).ticker_id_seq = s.ticker_id_seq := by
  unfold get_or_create_participant
  split <;> rfl

lemma gocp_price_snapshots (s : TradingState) (gid : Nat) (pid : String) (g : Game) :
    (get_or_create_participant s gid pid g).price_snapshots = s.price_snapshots := by
  unfold get_or_create_participant
  split <;> rfl

lemma gocp_trades (s : TradingState) (gid : Nat) (pid : String) (g : Game) :
    (get_or_create_participant s gid pid g).trades = s.trades := by
  unfold get_or_create_participant
  split <;> rfl

lemma gocp_trade_id_seq (s : TradingState) (gid : Nat) (pid : String) (g : Game) :
    (get_or_create_participant s gid pid g).trade_id_seq = s.trade_id_seq := by
  unfold get_or_create_participant
  split <;> rfl

lemma gocp_profiles (s : TradingState) (gid : Nat) (pid : String) (g : Game) :
    (get_or_create_participant s gid pid g).profiles = s.profiles := by
  unfold get_or_create_participant
  split <;> rfl

lemma gocp_games (s : TradingState) (gid : Nat) (pid : String) (g : Game) :
    (get_or_create_participant s gid pid g).games = s.games := by
  unfold get_or_create_participant
  split <;> rfl

/-- The participant's balance exists after `get_or_create_participant`. -/
lemma gocp_lookup_isSome (s : TradingState) (gid : Nat) (pid : String) (g : Game) :
    (alookup (get_or_create_participant s gid pid g).participants_cash
      (participant_key gid pid)).isSome := by
  unfold get_or_create_participant
  split_ifs with h
  · exact h
  · rw [alookup_aset, if_pos rfl]
    rfl

/-- Balances other than the (possibly created) participant's are untouched. -/
lemma gocp_lookup_other (s : TradingState) (gid : Nat) (pid : String) (g : Game)
    (k : String) (hk : k ≠ participant_key gid pid) :
    alookup (get_or_create_participant s gid pid g).participants_cash k =
      alookup s.participants_cash k := by
  unfold get_or_create_participant
  split_ifs
  · rfl
  · rw [alookup_aset, if_neg hk]

/-- The (possibly created) participant's balance: the old one if present,
else the game's starting cash. -/
lemma gocp_lookup_self (s : TradingState) (gid : Nat) (pid : String) (g : Game) :
    alookup (get_or_create_participant s gid pid g).participants_cash
        (participant_key gid pid) =
      some (((alookup s.participants_cash (participant_key gid pid))).getD g.starting_cash) := by
  unfold get_or_create_participant
  split_ifs with h
  · obtain ⟨c, hc⟩ := Option.isSome_iff_exists.mp h
    rw [hc]
    rfl
  · rw [alookup_aset, if_pos rfl]
    rw [Option.not_isSome_iff_eq_none.mp h]
    rfl

/-- `CashNonneg` is preserved by lazy participant creation, provided the
game's starting cash is non-negative. -/
lemma gocp_cash_nonneg {s : TradingState} {gid : Nat} {pid : String} {g : Game}
    (hs : CashNonneg s) (hg : 0 ≤ g.starting_cash) :
    CashNonneg (get_or_create_participant s gid pid g) := by
  unfold get_or_create_participant
  split_ifs
  · exact hs
  · intro kv hkv
    rcases mem_aset hkv with rfl | h
    · exact hg
    · exact hs kv h

/-! ## `place_trade` branch lemmas -/

lemma place_trade_not_player {s : TradingState} {now : Nat} {body : PlaceTradeRequest}
    (h : body.player_id ∉ s.profiles) :
    place_trade s now body = (s, .error .playerNotFound) := by
  unfold place_trade
  rw [if_pos h]

lemma place_trade_no_game {s : TradingState} {now : Nat} {body : PlaceTradeRequest}
    (h : body.player_id ∈ s.profiles) (hg : alookup s.games body.game_id = none) :
    place_trade s now body = (s, .error .gameNotFound) := by
  unfold place_trade
  rw [if_neg (by simpa using h), hg]

lemma place_trade_not_allowed {s : TradingState} {now : Nat} {body : PlaceTradeRequest}
    {g : Game} (h : body.player_id ∈ s.profiles)
    (hg : alookup s.games body.game_id = some g)
    (hst : ¬(g.status = .PENDING ∨ g.status = .IN_PROGRESS)) :
    place_trade s now body = (s, .error .tradingNotAllowed) := by
  unfold place_trade
  rw [if_neg (by simpa using h), hg]
  simp only [if_pos hst]

lemma place_trade_core_eq {s : TradingState} {now : Nat} {body : PlaceTradeRequest}
    {g : Game} (h : body.player_id ∈ s.profiles)
    (hg : alookup s.games body.game_id = some g)
    (hst : g.status = .PENDING ∨ g.status = .IN_PROGRESS) :
    place_trade s now body =
      place_trade_core (get_or_create_participant s body.game_id body.player_id g) now body := by
  unfold place_trade
  rw [if_neg (by simpa using h), hg]
  simp only [if_neg (not_not_intro hst)]

lemma place_trade_exec_snd (s1 : TradingState) (now : Nat) (body : PlaceTradeRequest)
    (tid : Nat) (price cash : Decimal) :
    (place_trade_exec s1 now body tid price cash).2 =
      .ok ⟨s1.trade_id_seq, body.game_id, participant_key body.game_id body.player_id,
        body.round_id, tid, body.side, body.quantity, price, now⟩ := by
  unfold place_trade_exec
  split_ifs <;> rfl

lemma place_trade_exec_trades (s1 : TradingState) (now : Nat) (body : PlaceTradeRequest)
    (tid : Nat) (price cash : Decimal) :
    (place_trade_exec s1 now body tid price cash).1.trades =
      s1.trades ++
        [⟨s1.trade_id_seq, body.game_id, participant_key body.game_id body.player_id,
          body.round_id, tid, body.side, body.quantity, price, now⟩] := by
  unfold place_trade_exec
  split_ifs <;> rfl

lemma place_trade_exec_cash_self (s1 : TradingState) (now : Nat) (body : PlaceTradeRequest)
    (tid : Nat) (price cash : Decimal) :
    alookup (place_trade_exec s1 now body tid price cash).1.participants_cash
        (participant_key body.game_id body.player_id) =
      some (if body.side = .BUY then cash - price * body.quantity
        else cash + price * body.quantity) := by
  unfold place_trade_exec
  split_ifs with h <;> simp [h, alookup_aset]

lemma place_trade_exec_cash_other (s1 : TradingState) (now : Nat) (body : PlaceTradeRequest)
    (tid : Nat) (price cash : Decimal) (k : String)
    (hk : k ≠ participant_key body.game_id body.player_id) :
    alookup (place_trade_exec s1 now body tid price cash).1.participants_cash k =
      alookup s1.participants_cash k := by
  unfold place_trade_exec
  split_ifs <;> simp [alookup_aset, hk]

lemma place_trade_exec_tickers (s1 : TradingState) (now : Nat) (body : PlaceTradeRequest)
    (tid : Nat) (price cash : Decimal) :
    (place_trade_exec s1 now body tid price cash).1.tickers = s1.tickers := by
  unfold place_trade_exec
  split_ifs <;> rfl

lemma place_trade_exec_sym_index (s1 : TradingState) (now : Nat) (body : PlaceTradeRequest)
    (tid : Nat) (price cash : Decimal) :
    (place_trade_exec s1 now body tid price cash).1.sym_index = s1.sym_index := by
  unfold place_trade_exec
  split_ifs <;> rfl

lemma place_trade_exec_price_snapshots (s1 : TradingState) (now : Nat)
    (body : PlaceTradeRequest) (tid : Nat) (price cash : Decimal) :
    (place_trade_exec s1 now body tid price cash).1.price_snapshots = s1.price_snapshots := by
  unfold place_trade_exec
  split_ifs <;> rfl

lemma place_trade_exec_games (s1 : TradingState) (now : Nat) (body : PlaceTradeRequest)
    (tid : Nat) (price cash : Decimal) :
    (place_trade_exec s1 now body tid price cash).1.games = s1.games := by
  unfold place_trade_exec
  split_ifs <;> rfl

lemma place_trade_exec_profiles (s1 : TradingState) (now : Nat) (body : PlaceTradeRequest)
    (tid : Nat) (price cash : Decimal) :
    (place_trade_exec s1 now body tid price cash).1.profiles = s1.profiles := by
  unfold place_trade_exec
  split_ifs <;> rfl

lemma place_trade_exec_ticker_id_seq (s1 : TradingState) (now : Nat)
    (body : PlaceTradeRequest) (tid : Nat) (price cash : Decimal) :
    (place_trade_exec s1 now body tid price cash).1.ticker_id_seq = s1.ticker_id_seq := by
  unfold place_trade_exec
  split_ifs <;> rfl

/-- A run of `place_trade_core` either fails with the store untouched or
commits via `place_trade_exec`. -/
lemma place_trade_core_cases (s1 : TradingState) (now : Nat) (body : PlaceTradeRequest) :
    (place_trade_core s1 now body).1 = s1 ∨
      ∃ tid price cash,
        place_trade_core s1 now body = place_trade_exec s1 now body tid price cash := by
  unfold place_trade_core
  split
  · exact .inl rfl
  · split
    · exact .inl rfl
    · split
      · exact .inl rfl
      · split
        · exact .inl rfl
        · split
          · exact .inl rfl
          · exact .inr ⟨_, _, _, rfl⟩

/-- Every failing run of `place_trade_core` leaves the store untouched. -/
lemma place_trade_core_error_state {s1 : TradingState} {now : Nat}
    {body : PlaceTradeRequest} {e : ApiError}
    (h : (place_trade_core s1 now body).2 = .error e) :
    (place_trade_core s1 now body).1 = s1 := by
  refine (place_trade_core_cases s1 now body).resolve_right ?_
  rintro ⟨tid, price, cash, heq⟩
  rw [heq, place_trade_exec_snd] at h
  exact absurd h (by simp)

lemma gocp_ps_id_seq (s : TradingState) (gid : Nat) (pid : String) (g : Game) :
    (get_or_create_participant s gid pid g).ps_id_seq = s.ps_id_seq := by
  unfold get_or_create_participant
  split_ifs <;> rfl

lemma place_trade_exec_ps_id_seq (s1 : TradingState) (now : Nat) (body : PlaceTradeRequest)
    (tid : Nat) (price cash : Decimal) :
    (place_trade_exec s1 now body tid price cash).1.ps_id_seq = s1.ps_id_seq := by
  unfold place_trade_exec
  split_ifs <;> rfl

lemma place_trade_core_of_resolved {s1 : TradingState} {now : Nat} {body : PlaceTradeRequest}
    {tid : Nat} {tk : Ticker} {snap : Snapshot}
    (hrt : require_ticker s1.sym_index s1.tickers body.ticker_symbol = .ok (tid, tk))
    (hlp : latest_price s1.price_snapshots body.game_id tid body.round_id = .ok snap) :
    place_trade_core s1 now body =
      if body.side = .SELL ∧
          position_quantity s1.trades (participant_key body.game_id body.player_id) tid -
              body.quantity < 0 then
        (s1, .error .insufficientPosition)
      else
        match alookup s1.participants_cash (participant_key body.game_id body.player_id) with
        | none => (s1, .error .keyError)
        | some cash =>
          if body.side = .BUY ∧ cash < snap.price * body.quantity then
            (s1, .error .insufficientCash)
          else place_trade_exec s1 now body tid snap.price cash := by
  unfold place_trade_core
  rw [hrt]
  simp only []
  rw [hlp]

/-- Once ticker and price are resolved, the SELL position check fails with
`insufficientPosition` exactly when the requested quantity exceeds the
current derived position. -/
lemma place_trade_core_insufficient_position_iff {s1 : TradingState} {now : Nat}
    {body : PlaceTradeRequest} {tid : Nat} {tk : Ticker} {snap : Snapshot}
    (hrt : require_ticker s1.sym_index s1.tickers body.ticker_symbol = .ok (tid, tk))
    (hlp : latest_price s1.price_snapshots body.game_id tid body.round_id = .ok snap) :
    (place_trade_core s1 now body).2 = .error .insufficientPosition ↔
      body.side = .SELL ∧
        position_quantity s1.trades (participant_key body.game_id body.player_id) tid -
            body.quantity < 0 := by
  rw [place_trade_core_of_resolved hrt hlp]
  by_cases hsp : body.side = .SELL ∧
      position_quantity s1.trades (participant_key body.game_id body.player_id) tid -
          body.quantity < 0
  · rw [if_pos hsp]
    simpa using hsp
  · rw [if_neg hsp]
    cases hc : alookup s1.participants_cash (participant_key body.game_id body.player_id) with
    | none => simpa using hsp
    | some cash =>
      simp only []
      split_ifs with hb
      · simpa using hsp
      · rw [place_trade_exec_snd]
        simpa using hsp

/-- Once ticker and price are resolved and the position check passed, the
BUY cash check fails with `insufficientCash` exactly when the notional
exceeds the participant's balance. -/
lemma place_trade_core_insufficient_cash_iff {s1 : TradingState} {now : Nat}
    {body : PlaceTradeRequest} {tid : Nat} {tk : Ticker} {snap : Snapshot} {cash : Decimal}
    (hrt : require_ticker s1.sym_index s1.tickers body.ticker_symbol = .ok (tid, tk))
    (hlp : latest_price s1.price_snapshots body.game_id tid body.round_id = .ok snap)
    (hpos : ¬(body.side = .SELL ∧
      position_quantity s1.trades (participant_key body.game_id body.player_id) tid -
          body.quantity < 0))
    (hcash : alookup s1.participants_cash (participant_key body.game_id body.player_id) =
      some cash) :
    (place_trade_core s1 now body).2 = .error .insufficientCash ↔
      body.side = .BUY ∧ cash < snap.price * body.quantity := by
  rw [place_trade_core_of_resolved hrt hlp, if_neg hpos, hcash]
  simp only []
  split_ifs with hb
  · simpa using hb
  · rw [place_trade_exec_snd]
    simpa using hb

/-- Once everything is resolved and both checks passed, the trade commits. -/
lemma place_trade_core_success {s1 : TradingState} {now : Nat}
    {body : PlaceTradeRequest} {tid : Nat} {tk : Ticker} {snap : Snapshot} {cash : Decimal}
    (hrt : require_ticker s1.sym_index s1.tickers body.ticker_symbol = .ok (tid, tk))
    (hlp : latest_price s1.price_snapshots body.game_id tid body.round_id = .ok snap)
    (hpos : ¬(body.side = .SELL ∧
      position_quantity s1.trades (participant_key body.game_id body.player_id) tid -
          body.quantity < 0))
    (hcash : alookup s1.participants_cash (participant_key body.game_id body.player_id) =
      some cash)
    (hbuy : ¬(body.side = .BUY ∧ cash < snap.price * body.quantity)) :
    place_trade_core s1 now body = place_trade_exec s1 now body tid snap.price cash := by
  rw [place_trade_core_of_resolved hrt hlp, if_neg hpos, hcash]
  simp only []
  rw [if_neg hbuy]

/-- A failing `place_trade` leaves the store as it was, except possibly for
the lazily created participant ledger entry. -/
lemma place_trade_error_state {s : TradingState} {now : Nat} {body : PlaceTradeRequest}
    {e : ApiError} (h : (place_trade s now body).2 = .error e) :
    (place_trade s now body).1 = s ∨
      ∃ g, alookup s.games body.game_id = some g ∧
        (place_trade s now body).1 =
          get_or_create_participant s body.game_id body.player_id g := by
  by_cases hp : body.player_id ∈ s.profiles
  · cases hg : alookup s.games body.game_id with
    | none =>
      rw [place_trade_no_game hp hg]
      exact .inl rfl
    | some g =>
      by_cases hst : g.status = .PENDING ∨ g.status = .IN_PROGRESS
      · rw [place_trade_core_eq hp hg hst] at h ⊢
        exact .inr ⟨g, rfl, place_trade_core_error_state h⟩
      · rw [place_trade_not_allowed hp hg hst]
        exact .inl rfl
  · rw [place_trade_not_player hp]
    exact .inl rfl

/-! ## Effect lemmas for the remaining operations -/

lemma create_ticker_cases (s : TradingState) (symbol : String) (name sector : Option String) :
    (create_ticker s symbol name sector).1 = s ∨
      (alookup s.sym_index (upper symbol) = none ∧
        (create_ticker s symbol name sector).1 =
          { s with
              tickers := aset s.tickers s.ticker_id_seq
                ⟨s.ticker_id_seq, upper symbol, name, sector⟩
              sym_index := aset s.sym_index (upper symbol) s.ticker_id_seq
              ticker_id_seq := s.ticker_id_seq + 1 }) := by
  simp only [create_ticker]
  split
  · exact .inl rfl
  · rename_i h
    exact .inr ⟨h, rfl⟩

lemma add_price_snapshot_cases (s : TradingState) (now game_id : Nat)
    (ticker_symbol : String) (price : Decimal) (round_id : Option Nat)
    (taken_at : Option Nat) :
    (add_price_snapshot s now game_id ticker_symbol price round_id taken_at).1 = s ∨
      ∃ tid tk, require_ticker s.sym_index s.tickers ticker_symbol = .ok (tid, tk) ∧
        (add_price_snapshot s now game_id ticker_symbol price round_id taken_at).1 =
          { s with
              price_snapshots := s.price_snapshots ++
                [⟨s.ps_id_seq, game_id, round_id, tid, price, taken_at.getD now⟩]
              ps_id_seq := s.ps_id_seq + 1 } := by
  simp only [add_price_snapshot]
  split
  · exact .inl rfl
  · split
    · exact .inl rfl
    · rename_i tid tk heq
      exact .inr ⟨tid, tk, heq, rfl⟩

lemma list_trades_state (s : TradingState) (game_id : Nat) (player_id : String)
    (round_id : Option Nat) (limit offset : Nat) :
    (list_trades s game_id player_id round_id limit offset).1 = s ∨
      ∃ g, alookup s.games game_id = some g ∧
        (list_trades s game_id player_id round_id limit offset).1 =
          get_or_create_participant s game_id player_id g := by
  simp only [list_trades]
  split
  · exact .inl rfl
  · split
    · exact .inl rfl
    · rename_i g hg
      exact .inr ⟨g, hg, rfl⟩

lemma get_portfolio_state (s : TradingState) (game_id : Nat) (player_id : String) :
    (get_portfolio s game_id player_id).1 = s ∨
      ∃ g, alookup s.games game_id = some g ∧
        (get_portfolio s game_id player_id).1 =
          get_or_create_participant s game_id player_id g := by
  simp only [get_portfolio]
  split
  · exact .inl rfl
  · split
    · exact .inl rfl
    · rename_i g hg
      refine .inr ⟨g, hg, ?_⟩
      split
      · rfl
      · split
        · rfl
        · rfl

/-! ## Invariant preservation -/

lemma require_ticker_ok {si : List (String × Nat)} {tks : List (Nat × Ticker)}
    {sym : String} {tid : Nat} {tk : Ticker}
    (h : require_ticker si tks sym = .ok (tid, tk)) :
    alookup si (upper sym) = some tid ∧ tid ≠ 0 ∧ alookup tks tid = some tk := by
  unfold require_ticker at h
  split at h
  · exact absurd h (by simp)
  · rename_i sid hsi
    split_ifs at h with h0
    split at h
    · exact absurd h (by simp)
    · rename_i tk' htk
      simp only [Except.ok.injEq, Prod.mk.injEq] at h
      obtain ⟨rfl, rfl⟩ := h
      exact ⟨hsi, h0, htk⟩

/-- All invariant components depend only on these fields. -/
lemma storeInv_congr {s s' : TradingState}
    (h1 : s'.games = s.games) (h2 : s'.price_snapshots = s.price_snapshots)
    (h3 : s'.participants_cash = s.participants_cash) (h4 : s'.trades = s.trades)
    (h5 : s'.sym_index = s.sym_index) (h6 : s'.tickers = s.tickers)
    (h7 : s'.ticker_id_seq = s.ticker_id_seq) (hs : StoreInv s) : StoreInv s' := by
  unfold StoreInv GamesCashPos SnapshotPricesPos CashNonneg PositionsNonneg RegistryOk
    SeqOk TradesTickersOk at hs ⊢
  rw [h1, h2, h3, h4, h5, h6, h7]
  exact hs

/-- Lazy participant creation preserves the invariant. -/
lemma storeInv_gocp {s : TradingState} {gid : Nat} {pid : String} {g : Game}
    (hs : StoreInv s) (hg : alookup s.games gid = some g) :
    StoreInv (get_or_create_participant s gid pid g) := by
  obtain ⟨hgc, hsp, hcn, hpn, hreg, hseq, htt⟩ := hs
  have hpos : 0 < g.starting_cash := hgc _ (alookup_mem hg)
  refine ⟨?_, ?_, gocp_cash_nonneg hcn (le_of_lt hpos), ?_, ?_, ?_, ?_⟩
  · unfold GamesCashPos at hgc ⊢
    rw [gocp_games]
    exact hgc
  · unfold SnapshotPricesPos at hsp ⊢
    rw [gocp_price_snapshots]
    exact hsp
  · unfold PositionsNonneg at hpn ⊢
    rw [gocp_trades]
    exact hpn
  · unfold RegistryOk at hreg ⊢
    rw [gocp_sym_index, gocp_tickers]
    exact hreg
  · unfold SeqOk at hseq ⊢
    rw [gocp_sym_index, gocp_tickers, gocp_ticker_id_seq]
    exact hseq
  · unfold TradesTickersOk at htt ⊢
    rw [gocp_trades, gocp_tickers]
    exact htt

/-- A full branch analysis of `place_trade_core` that records, in the
committing case, that every check passed. -/
lemma place_trade_core_cases_full (s1 : TradingState) (now : Nat) (body : PlaceTradeRequest) :
    (∃ e, place_trade_core s1 now body = (s1, .error e)) ∨
      ∃ tid tk snap cash,
        require_ticker s1.sym_index s1.tickers body.ticker_symbol = .ok (tid, tk) ∧
        latest_price s1.price_snapshots body.game_id tid body.round_id = .ok snap ∧
        ¬(body.side = .SELL ∧
          position_quantity s1.trades (participant_key body.game_id body.player_id) tid -
              body.quantity < 0) ∧
        alookup s1.participants_cash (participant_key body.game_id body.player_id) =
          some cash ∧
        ¬(body.side = .BUY ∧ cash < snap.price * body.quantity) ∧
        place_trade_core s1 now body = place_trade_exec s1 now body tid snap.price cash := by
  unfold place_trade_core
  split
  · exact .inl ⟨_, rfl⟩
  · rename_i tid tk hrt
    split
    · exact .inl ⟨_, rfl⟩
    · rename_i snap hlp
      split
      · exact .inl ⟨_, rfl⟩
      · rename_i hpos
        split
        · exact .inl ⟨_, rfl⟩
        · rename_i cash hcash
          split
          · exact .inl ⟨_, rfl⟩
          · rename_i hbuy
            exact .inr ⟨tid, tk, snap, cash, hrt, hlp, hpos, hcash, hbuy, rfl⟩

lemma place_trade_exec_participants_cash (s1 : TradingState) (now : Nat)
    (body : PlaceTradeRequest) (tid : Nat) (price cash : Decimal) :
    (place_trade_exec s1 now body tid price cash).1.participants_cash =
      aset s1.participants_cash (participant_key body.game_id body.player_id)
        (if body.side = .BUY then cash - price * body.quantity
          else cash + price * body.quantity) := by
  unfold place_trade_exec
  split_ifs with h <;> simp [h]

/-- Committing a fully checked trade preserves the invariant. -/
lemma storeInv_exec {s1 : TradingState} {now : Nat} {body : PlaceTradeRequest}
    {tid : Nat} {tk : Ticker} {snap : Snapshot} {cash : Decimal}
    (hs1 : StoreInv s1) (hqty : 0 < body.quantity)
    (hrt : require_ticker s1.sym_index s1.tickers body.ticker_symbol = .ok (tid, tk))
    (hlp : latest_price s1.price_snapshots body.game_id tid body.round_id = .ok snap)
    (hpos : ¬(body.side = .SELL ∧
      position_quantity s1.trades (participant_key body.game_id body.player_id) tid -
          body.quantity < 0))
    (hcash : alookup s1.participants_cash (participant_key body.game_id body.player_id) =
      some cash)
    (hbuy : ¬(body.side = .BUY ∧ cash < snap.price * body.quantity)) :
    StoreInv (place_trade_exec s1 now body tid snap.price cash).1 := by
  obtain ⟨hgc, hsp, hcn, hpn, hreg, hseq, htt⟩ := hs1
  have hprice : 0 < snap.price := by
    obtain ⟨hmem, _⟩ := latest_price_ok_mem hlp
    exact hsp snap hmem
  have hcash0 : 0 ≤ cash := hcn _ (alookup_mem hcash)
  have hnot : 0 ≤ snap.price * body.quantity :=
    le_of_lt (mul_pos hprice hqty)
  refine ⟨?_, ?_, ?_, ?_, ?_, ?_, ?_⟩
  · unfold GamesCashPos
    rw [place_trade_exec_games]
    exact hgc
  · unfold SnapshotPricesPos
    rw [place_trade_exec_price_snapshots]
    exact hsp
  · unfold CashNonneg
    rw [place_trade_exec_participants_cash]
    intro kv hkv
    rcases mem_aset hkv with rfl | hold
    · simp only []
      split_ifs with hb
      · have : ¬cash < snap.price * body.quantity := fun hc => hbuy ⟨hb, hc⟩
        linarith [not_lt.mp this]
      · linarith
    · exact hcn kv hold
  · unfold PositionsNonneg
    intro pk tid'
    rw [place_trade_exec_trades, position_quantity_append]
    unfold position_step
    split_ifs with hmatch
    · obtain ⟨hpk, htid⟩ := hmatch
      simp only [] at hpk htid
      cases hside : body.side with
      | BUY =>
        simp only []
        have := hpn pk tid'
        linarith
      | SELL =>
        simp only []
        have hkey : position_quantity s1.trades pk tid' =
            position_quantity s1.trades (participant_key body.game_id body.player_id) tid := by
          rw [hpk, htid]
        have hge : ¬(position_quantity s1.trades
            (participant_key body.game_id body.player_id) tid - body.quantity < 0) :=
          fun hc => hpos ⟨hside, hc⟩
        rw [hkey]
        linarith [not_lt.mp hge]
    · exact hpn pk tid'
  · unfold RegistryOk
    rw [place_trade_exec_sym_index, place_trade_exec_tickers]
    exact hreg
  · unfold SeqOk
    rw [place_trade_exec_sym_index, place_trade_exec_tickers, place_trade_exec_ticker_id_seq]
    exact hseq
  · unfold TradesTickersOk
    rw [place_trade_exec_trades, place_trade_exec_tickers]
    intro t ht
    rcases List.mem_append.mp ht with hold | hnew
    · exact htt t hold
    · obtain rfl : t = _ := List.mem_singleton.mp hnew
      simp only []
      rw [(require_ticker_ok hrt).2.2]
      rfl

/-- The invariant holds in the empty store. -/
lemma storeInv_init : StoreInv TradingState.init := by
  refine ⟨?_, ?_, ?_, ?_, ⟨?_, ?_⟩, ⟨?_, ?_, ?_⟩, ?_⟩ <;>
    simp [TradingState.init, GamesCashPos, SnapshotPricesPos, CashNonneg,
      PositionsNonneg, RegistryOk, SeqOk, TradesTickersOk, position_quantity]

/-- One server operation preserves the invariant. -/
theorem storeInv_step {s s' : TradingState} (hs : StoreInv s) (hst : Step s s') :
    StoreInv s' := by
  cases hst with
  | profileAdded pid => exact storeInv_congr rfl rfl rfl rfl rfl rfl rfl hs
  | profileDeleted pid => exact storeInv_congr rfl rfl rfl rfl rfl rfl rfl hs
  | gameAdded gid g hcash =>
    obtain ⟨hgc, h2, h3, h4, h5, h6, h7⟩ := hs
    refine ⟨?_, h2, h3, h4, h5, h6, h7⟩
    intro kv hkv
    rcases mem_aset hkv with rfl | hold
    · exact hcash
    · exact hgc kv hold
  | gameStatusChanged gid g st hmem =>
    obtain ⟨hgc, h2, h3, h4, h5, h6, h7⟩ := hs
    refine ⟨?_, h2, h3, h4, h5, h6, h7⟩
    intro kv hkv
    rcases mem_aset hkv with rfl | hold
    · show 0 < g.starting_cash
      exact hgc _ (alookup_mem hmem)
    · exact hgc kv hold
  | gameDeleted gid =>
    obtain ⟨hgc, h2, h3, h4, h5, h6, h7⟩ := hs
    refine ⟨?_, h2, h3, h4, h5, h6, h7⟩
    intro kv hkv
    exact hgc kv (List.mem_of_mem_filter hkv)
  | tickerCreated symbol name sector =>
    rcases create_ticker_cases s symbol name sector with heq | ⟨hnone, heq⟩
    · rw [heq]
      exact hs
    · rw [heq]
      obtain ⟨hgc, h2, h3, h4, ⟨hreg1, hreg2⟩, ⟨hq1, hqt, hqs⟩, htt⟩ := hs
      refine ⟨hgc, h2, h3, h4, ⟨?_, ?_⟩, ⟨?_, ?_, ?_⟩, ?_⟩
      · intro kv hkv
        rcases mem_aset hkv with rfl | hold
        · refine ⟨hq1, ⟨s.ticker_id_seq, upper symbol, name, sector⟩, ?_, rfl⟩
          rw [alookup_aset, if_pos rfl]
        · obtain ⟨hk1, tk0, htk0, hsym0⟩ := hreg1 kv hold
          refine ⟨hk1, tk0, ?_, hsym0⟩
          rw [alookup_aset, if_neg (Nat.ne_of_lt (hqs kv hold))]
          exact htk0
      · intro kv hkv
        rcases mem_aset hkv with rfl | hold
        · rw [alookup_aset]
          simp only [if_pos rfl]
          rfl
        · rw [alookup_aset]
          split_ifs with hh
          · rfl
          · exact hreg2 kv hold
      · exact Nat.le_succ_of_le hq1
      · intro kv hkv
        rcases mem_aset hkv with rfl | hold
        · exact Nat.lt_succ_self _
        · exact Nat.lt_succ_of_lt (hqt kv hold)
      · intro kv hkv
        rcases mem_aset hkv with rfl | hold
        · exact Nat.lt_succ_self _
        · exact Nat.lt_succ_of_lt (hqs kv hold)
      · intro t ht
        rw [alookup_aset]
        split_ifs with hh
        · rfl
        · exact htt t ht
  | snapshotAdded now game_id ticker_symbol price round_id taken_at hprice =>
    rcases add_price_snapshot_cases s now game_id ticker_symbol price round_id taken_at with
      heq | ⟨tid, tk, hrt, heq⟩
    · rw [heq]
      exact hs
    · rw [heq]
      obtain ⟨hgc, hsp, h3, h4, h5, h6, h7⟩ := hs
      refine ⟨hgc, ?_, h3, h4, h5, h6, h7⟩
      intro row hrow
      rcases List.mem_append.mp hrow with hold | hnew
      · exact hsp row hold
      · obtain rfl : row = _ := List.mem_singleton.mp hnew
        exact hprice
  | tradePlaced now body hqty =>
    by_cases hp : body.player_id ∈ s.profiles
    · cases hg : alookup s.games body.game_id with
      | none =>
        rw [place_trade_no_game hp hg]
        exact hs
      | some g =>
        by_cases hstatus : g.status = .PENDING ∨ g.status = .IN_PROGRESS
        · rw [place_trade_core_eq hp hg hstatus]
          have hs1 : StoreInv (get_or_create_participant s body.game_id body.player_id g) :=
            storeInv_gocp hs hg
          rcases place_trade_core_cases_full
              (get_or_create_participant s body.game_id body.player_id g) now body with
            ⟨e, heq⟩ | ⟨tid, tk, snap, cash, hrt, hlp, hpos, hcash, hbuy, heq⟩
          · rw [heq]
            exact hs1
          · rw [heq]
            exact storeInv_exec hs1 hqty hrt hlp hpos hcash hbuy
        · rw [place_trade_not_allowed hp hg hstatus]
          exact hs
    · rw [place_trade_not_player hp]
      exact hs
  | tradesListed game_id player_id round_id limit offset =>
    rcases list_trades_state s game_id player_id round_id limit offset with
      heq | ⟨g, hg, heq⟩
    · rw [heq]
      exact hs
    · rw [heq]
      exact storeInv_gocp hs hg
  | portfolioViewed game_id player_id =>
    rcases get_portfolio_state s game_id player_id with heq | ⟨g, hg, heq⟩
    · rw [heq]
      exact hs
    · rw [heq]
      exact storeInv_gocp hs hg

/-- The invariant holds in every reachable store. -/
theorem reachable_storeInv {s : TradingState} (h : Reachable s) : StoreInv s := by
  induction h with
  | refl => exact storeInv_init
  | tail hr hstep ih => exact storeInv_step ih hstep

/-! ## Registry bridging lemmas -/

lemma sym_lookup_none_iff {s : TradingState} (hreg : RegistryOk s) (u : String) :
    alookup s.sym_index u = none ↔ ∀ kv ∈ s.tickers, (kv.2).symbol ≠ u := by
  constructor
  · intro hnone kv hkv he
    have := hreg.2 kv hkv
    rw [he, hnone] at this
    exact absurd this (by simp)
  · intro hall
    cases hsi : alookup s.sym_index u with
    | none => rfl
    | some sid =>
      obtain ⟨_, tk, htk, hsym⟩ := hreg.1 _ (alookup_mem hsi)
      exact absurd hsym (hall (sid, tk) (alookup_mem htk))

/-- Under the registry invariant, symbol resolution fails exactly when no
stored ticker carries the uppercased symbol. -/
lemma require_ticker_error_iff {s : TradingState} (hreg : RegistryOk s) (sym : String) :
    require_ticker s.sym_index s.tickers sym = .error .tickerNotFound ↔
      ∀ kv ∈ s.tickers, (kv.2).symbol ≠ upper sym := by
  unfold require_ticker
  cases hsi : alookup s.sym_index (upper sym) with
  | none =>
    simp only []
    exact iff_of_true trivial ((sym_lookup_none_iff hreg (upper sym)).mp hsi)
  | some sid =>
    obtain ⟨h1, tk, htk, hsym⟩ := hreg.1 _ (alookup_mem hsi)
    simp only []
    rw [if_neg (by omega : ¬sid = 0), htk]
    refine iff_of_false (by simp) ?_
    intro hall
    exact hall (sid, tk) (alookup_mem htk) hsym

/-- Under the registry invariant, a successful resolution returns a stored
ticker whose stored symbol is the uppercased query. -/
lemma require_ticker_ok_sym {s : TradingState} {sym : String} {tid : Nat} {tk : Ticker}
    (h : require_ticker s.sym_index s.tickers sym = .ok (tid, tk)) :
    (tid, tk) ∈ s.tickers ∧ alookup s.sym_index (upper sym) = some tid ∧
      tk.symbol ∈ (alookup s.sym_index (upper sym)).elim [] (fun _ => [tk.symbol]) := by
  obtain ⟨hsi, _, htk⟩ := require_ticker_ok h
  exact ⟨alookup_mem htk, hsi, by rw [hsi]; simp⟩

/-- `require_ticker` only ever fails with `tickerNotFound` or (on a dangling
index entry) `keyError`. -/
lemma require_ticker_error_cases {si : List (String × Nat)} {tks : List (Nat × Ticker)}
    {sym : String} {e : ApiError} (h : require_ticker si tks sym = .error e) :
    e = .tickerNotFound ∨ e = .keyError := by
  unfold require_ticker at h
  split at h
  · exact .inl (by injection h with h'; exact h'.symm)
  · split_ifs at h with h0
    · exact .inl (by injection h with h'; exact h'.symm)
    · split at h
      · exact .inr (by injection h with h'; exact h'.symm)
      · exact absurd h (by simp)

/-- Under the registry invariant the dangling-index `keyError` cannot
happen. -/
lemma require_ticker_no_keyError {s : TradingState} (hreg : RegistryOk s) (sym : String) :
    require_ticker s.sym_index s.tickers sym ≠ .error .keyError := by
  intro h
  unfold require_ticker at h
  split at h
  · exact absurd h (by simp)
  · rename_i sid hsi
    obtain ⟨h1, tk, htk, hsym⟩ := hreg.1 _ (alookup_mem hsi)
    rw [if_neg (by omega : ¬sid = 0), htk] at h
    exact absurd h (by simp)

/-- Symbol resolution is case-insensitive: it depends only on the
uppercased query. -/
lemma require_ticker_congr (si : List (String × Nat)) (tks : List (Nat × Ticker))
    {sym sym' : String} (h : upper sym = upper sym') :
    require_ticker si tks sym = require_ticker si tks sym' := by
  unfold require_ticker
  rw [h]

/-! ## A concrete reachable scenario (used by witnesses) -/

def exS1 : TradingState :=
  { TradingState.init with profiles := TradingState.init.profiles ++ ["user_1"] }

def exS2 : TradingState :=
  { exS1 with games := aset exS1.games 1 ⟨.PENDING, 100000⟩ }

def exS3 : TradingState := (create_ticker exS2 "AAPL" none none).1

def exS4 : TradingState := (add_price_snapshot exS3 10 1 "AAPL" 100 none none).1

def exBuy : PlaceTradeRequest := ⟨1, "user_1", "AAPL", .BUY, 10, none⟩

def exS5 : TradingState := (place_trade exS4 11 exBuy).1

def exS6 : TradingState := (add_price_snapshot exS5 12 1 "AAPL" 120 none none).1

def exSell : PlaceTradeRequest := ⟨1, "user_1", "AAPL", .SELL, 4, none⟩

def exS7 : TradingState := (place_trade exS6 13 exSell).1

lemma reachable_exS2 : Reachable exS2 :=
  (Relation.ReflTransGen.single (Step.profileAdded TradingState.init "user_1")).tail
    (Step.gameAdded exS1 1 ⟨.PENDING, 100000⟩ (by decide))

lemma reachable_exS3 : Reachable exS3 :=
  reachable_exS2.tail (Step.tickerCreated exS2 "AAPL" none none)

lemma reachable_exS4 : Reachable exS4 :=
  reachable_exS3.tail (Step.snapshotAdded exS3 10 1 "AAPL" 100 none none (by decide))

lemma reachable_exS5 : Reachable exS5 :=
  reachable_exS4.tail (Step.tradePlaced exS4 11 exBuy (by decide))

lemma reachable_exS6 : Reachable exS6 :=
  reachable_exS5.tail (Step.snapshotAdded exS5 12 1 "AAPL" 120 none none (by decide))

lemma reachable_exS7 : Reachable exS7 :=
  reachable_exS6.tail (Step.tradePlaced exS6 13 exSell (by decide))

/-! ## Claim C5 -/

/-- C5: For every call to the latest-price lookup with
`(game_id, ticker_id, round_id)`: if a round is given and some snapshot
matches `(game, ticker, round)`, the most recently inserted such snapshot is
returned (the suffix after it contains no further match); otherwise, if some
snapshot matches `(game, ticker)`, the most recently inserted of those is
returned regardless of its round; otherwise the lookup fails with
`NoPriceAvailable`. -/
theorem C5_latest_price_selection (snaps : List Snapshot) (g tid : Nat) (r : Option Nat) :
    (∀ rid, r = some rid → (∃ row ∈ snaps, snap_match3 g tid rid row = true) →
      ∃ l₁ x l₂, snaps = l₁ ++ x :: l₂ ∧ snap_match3 g tid rid x = true ∧
        (∀ y ∈ l₂, ¬snap_match3 g tid rid y = true) ∧
        latest_price snaps g tid r = .ok x) ∧
    ((r = none ∨ ∃ rid, r = some rid ∧ ∀ row ∈ snaps, ¬snap_match3 g tid rid row = true) →
      (∃ row ∈ snaps, snap_match2 g tid row = true) →
      ∃ l₁ x l₂, snaps = l₁ ++ x :: l₂ ∧ snap_match2 g tid x = true ∧
        (∀ y ∈ l₂, ¬snap_match2 g tid y = true) ∧
        latest_price snaps g tid r = .ok x) ∧
    ((∀ row ∈ snaps, ¬snap_match2 g tid row = true) →
      latest_price snaps g tid r = .error .noPriceAvailable) := by
  refine ⟨?_, ?_, ?_⟩
  · rintro rid rfl hex
    have hsome : (snaps.reverse.find? (snap_match3 g tid rid)).isSome := by
      rw [List.find?_isSome]
      obtain ⟨row, hmem, hp⟩ := hex
      exact ⟨row, by simpa using hmem, hp⟩
    obtain ⟨x, hf⟩ := Option.isSome_iff_exists.mp hsome
    obtain ⟨hp, l₁, l₂, hdec, hall⟩ := find?_reverse_eq_some.mp hf
    refine ⟨l₁, x, l₂, hdec, hp, hall, ?_⟩
    rw [latest_price_some_def, hf]
  · intro hcase hex
    have hsome : (snaps.reverse.find? (snap_match2 g tid)).isSome := by
      rw [List.find?_isSome]
      obtain ⟨row, hmem, hp⟩ := hex
      exact ⟨row, by simpa using hmem, hp⟩
    obtain ⟨x, hf⟩ := Option.isSome_iff_exists.mp hsome
    obtain ⟨hp, l₁, l₂, hdec, hall⟩ := find?_reverse_eq_some.mp hf
    refine ⟨l₁, x, l₂, hdec, hp, hall, ?_⟩
    rcases hcase with rfl | ⟨rid, rfl, hnone3⟩
    · rw [latest_price_none_def, hf]
    · rw [latest_price_some_def, find?_reverse_eq_none.mpr hnone3, hf]
  · intro hall
    exact (latest_price_error_iff snaps g tid r .noPriceAvailable).mpr ⟨rfl, hall⟩

def exSnapR1 : Snapshot := ⟨1, 1, some 1, 1, 10, 0⟩

def exSnapR2 : Snapshot := ⟨2, 1, some 2, 1, 20, 1⟩

def exSnapR1b : Snapshot := ⟨3, 1, some 1, 1, 30, 2⟩

theorem C5_latest_price_selection_witness :
    (∃ l₁ x l₂, ([exSnapR1, exSnapR2, exSnapR1b] : List Snapshot) = l₁ ++ x :: l₂ ∧
      snap_match3 1 1 1 x = true ∧ (∀ y ∈ l₂, ¬snap_match3 1 1 1 y = true) ∧
      latest_price [exSnapR1, exSnapR2, exSnapR1b] 1 1 (some 1) = .ok x) ∧
      latest_price [exSnapR1, exSnapR2, exSnapR1b] 1 1 (some 1) = .ok exSnapR1b :=
  ⟨(C5_latest_price_selection [exSnapR1, exSnapR2, exSnapR1b] 1 1 (some 1)).1 1 rfl
      (by decide),
    by decide⟩

/-! ## Claim C8 -/

/-- C8: `register_ticker` fails with `Conflict` exactly when the uppercased
form of the requested symbol is already registered; otherwise it assigns the
next sequential id and stores the record with the symbol uppercased.
`resolve_ticker` matches case-insensitively (it depends only on the
uppercased query) and fails with `NotFound` exactly when no registered
ticker matches. -/
theorem C8_ticker_registry (s : TradingState) (hreg : RegistryOk s)
    (symbol : String) (name sector : Option String) :
    ((create_ticker s symbol name sector).2 = .error .tickerExists ↔
      ∃ kv ∈ s.tickers, (kv.2).symbol = upper symbol) ∧
    ((¬∃ kv ∈ s.tickers, (kv.2).symbol = upper symbol) →
      (create_ticker s symbol name sector).2 =
          .ok ⟨s.ticker_id_seq, upper symbol, name, sector⟩ ∧
        (create_ticker s symbol name sector).1 =
          { s with
              tickers := aset s.tickers s.ticker_id_seq
                ⟨s.ticker_id_seq, upper symbol, name, sector⟩
              sym_index := aset s.sym_index (upper symbol) s.ticker_id_seq
              ticker_id_seq := s.ticker_id_seq + 1 }) ∧
    (require_ticker s.sym_index s.tickers symbol = .error .tickerNotFound ↔
      ¬∃ kv ∈ s.tickers, (kv.2).symbol = upper symbol) ∧
    (∀ sym', upper sym' = upper symbol →
      require_ticker s.sym_index s.tickers sym' =
        require_ticker s.sym_index s.tickers symbol) := by
  have hnone_iff : alookup s.sym_index (upper symbol) = none ↔
      ¬∃ kv ∈ s.tickers, (kv.2).symbol = upper symbol := by
    rw [sym_lookup_none_iff hreg]
    push_neg
    rfl
  refine ⟨?_, ?_, ?_, fun sym' h => require_ticker_congr s.sym_index s.tickers h⟩
  · simp only [create_ticker]
    cases hsi : alookup s.sym_index (upper symbol) with
    | some sid =>
      refine iff_of_true rfl ?_
      obtain ⟨_, tk, htk, hsym⟩ := hreg.1 _ (alookup_mem hsi)
      exact ⟨(sid, tk), alookup_mem htk, hsym⟩
    | none =>
      exact iff_of_false (by simp) (hnone_iff.mp hsi)
  · intro hnotex
    simp only [create_ticker]
    rw [hnone_iff.mpr hnotex]
    exact ⟨rfl, rfl⟩
  · rw [require_ticker_error_iff hreg]
    push_neg
    rfl

theorem C8_ticker_registry_witness :
    (create_ticker exS3 "aapl" none none).2 = .error .tickerExists ∧
      require_ticker exS3.sym_index exS3.tickers "MsFt" = .error .tickerNotFound :=
  ⟨((C8_ticker_registry exS3 (reachable_storeInv reachable_exS3).2.2.2.2.1
        "aapl" none none).1).mpr (by decide),
    ((C8_ticker_registry exS3 (reachable_storeInv reachable_exS3).2.2.2.2.1
        "MsFt" none none).2.2.1).mpr (by decide)⟩

/-! ## Claim C10 -/

lemma get_price_rt_error {s : TradingState} {symbol : String} {gid : Nat}
    {r : Option Nat} {e : ApiError}
    (h : require_ticker s.sym_index s.tickers symbol = .error e) :
    get_price s symbol gid r = .error e := by
  unfold get_price
  rw [h]

/-- C10: `get_price` never validates the game: it ignores the `games`
directory entirely, fails with `NoPriceAvailable` (400) for any registered
symbol and any game id without matching snapshots — known game or not — and
can return a 404 only for an unknown ticker symbol, never a game
`NotFound`. -/
theorem C10_get_price_game_agnostic (s : TradingState) (hreg : RegistryOk s)
    (symbol : String) (game_id : Nat) (round_id : Option Nat) :
    (∀ games', get_price { s with games := games' } symbol game_id round_id =
      get_price s symbol game_id round_id) ∧
    (∀ tid tk, require_ticker s.sym_index s.tickers symbol = .ok (tid, tk) →
      (∀ row ∈ s.price_snapshots, ¬snap_match2 game_id tid row = true) →
      get_price s symbol game_id round_id = .error .noPriceAvailable) ∧
    (∀ e, get_price s symbol game_id round_id = .error e →
      e ≠ .gameNotFound ∧
        (e.status = 404 →
          e = .tickerNotFound ∧ ∀ kv ∈ s.tickers, (kv.2).symbol ≠ upper symbol)) := by
  refine ⟨fun games' => rfl, ?_, ?_⟩
  · intro tid tk hrt hall
    unfold get_price
    rw [hrt]
    simp only []
    rw [(latest_price_error_iff s.price_snapshots game_id tid round_id
      .noPriceAvailable).mpr ⟨rfl, hall⟩]
  · intro e he
    cases hrt : require_ticker s.sym_index s.tickers symbol with
    | error e' =>
      rw [get_price_rt_error hrt] at he
      obtain rfl : e' = e := by injection he
      rcases require_ticker_error_cases hrt with rfl | rfl
      · exact ⟨by simp, fun _ => ⟨rfl, (require_ticker_error_iff hreg symbol).mp hrt⟩⟩
      · exact ⟨by simp, fun h404 => absurd h404 (by simp [ApiError.status])⟩
    | ok v =>
      obtain ⟨tid, tk⟩ := v
      unfold get_price at he
      rw [hrt] at he
      simp only [] at he
      cases hlp : latest_price s.price_snapshots game_id tid round_id with
      | error e' =>
        rw [hlp] at he
        obtain rfl : e' = e := by injection he
        obtain ⟨rfl, -⟩ := (latest_price_error_iff _ _ _ _ _).mp hlp
        exact ⟨by simp, fun h404 => absurd h404 (by simp [ApiError.status])⟩
      | ok snap =>
        rw [hlp] at he
        exact absurd he (by simp)

theorem C10_get_price_game_agnostic_witness :
    get_price exS3 "AAPL" 999 none = .error .noPriceAvailable :=
  (C10_get_price_game_agnostic exS3 (reachable_storeInv reachable_exS3).2.2.2.2.1
      "AAPL" 999 none).2.1 1 ⟨1, "AAPL", none, none⟩ (by decide) (by decide)

/-- What a successful `place_trade` did: both checks passed, the store went
through `place_trade_exec`, and the returned row records the request at the
snapshot's execution price. -/
lemma place_trade_success_effect {s : TradingState} {now : Nat} {body : PlaceTradeRequest}
    {g : Game} (hp : body.player_id ∈ s.profiles)
    (hg : alookup s.games body.game_id = some g)
    (hstatus : g.status = .PENDING ∨ g.status = .IN_PROGRESS)
    {tid : Nat} {tk : Ticker} {snap : Snapshot}
    (hrt : require_ticker s.sym_index s.tickers body.ticker_symbol = .ok (tid, tk))
    (hlp : latest_price s.price_snapshots body.game_id tid body.round_id = .ok snap)
    {row : Trade} (hok : (place_trade s now body).2 = .ok row) :
    ¬(body.side = .SELL ∧
      position_quantity s.trades (participant_key body.game_id body.player_id) tid -
        body.quantity < 0) ∧
    ¬(body.side = .BUY ∧
      (alookup s.participants_cash (participant_key body.game_id body.player_id)).getD
        g.starting_cash < snap.price * body.quantity) ∧
    place_trade s now body =
      place_trade_exec (get_or_create_participant s body.game_id body.player_id g) now body
        tid snap.price
        ((alookup s.participants_cash (participant_key body.game_id body.player_id)).getD
          g.starting_cash) ∧
    row = ⟨s.trade_id_seq, body.game_id, participant_key body.game_id body.player_id,
      body.round_id, tid, body.side, body.quantity, snap.price, now⟩ := by
  have hrt1 : require_ticker
      (get_or_create_participant s body.game_id body.player_id g).sym_index
      (get_or_create_participant s body.game_id body.player_id g).tickers
      body.ticker_symbol = .ok (tid, tk) := by
    rw [gocp_sym_index, gocp_tickers]
    exact hrt
  have hlp1 : latest_price
      (get_or_create_participant s body.game_id body.player_id g).price_snapshots
      body.game_id tid body.round_id = .ok snap := by
    rw [gocp_price_snapshots]
    exact hlp
  have hcash1 := gocp_lookup_self s body.game_id body.player_id g
  rw [place_trade_core_eq hp hg hstatus] at hok ⊢
  rcases place_trade_core_cases_full
      (get_or_create_participant s body.game_id body.player_id g) now body with
    ⟨e, heq⟩ | ⟨tid', tk', snap', cash', hrt', hlp', hpos', hcash', hbuy', heq⟩
  · rw [heq] at hok
    exact absurd hok (by simp)
  · obtain ⟨rfl, rfl⟩ : tid' = tid ∧ tk' = tk := by
      have := Except.ok.inj (hrt'.symm.trans hrt1)
      exact ⟨congrArg Prod.fst this, congrArg Prod.snd this⟩
    obtain rfl : snap' = snap := (Except.ok.inj (hlp'.symm.trans hlp1))
    obtain rfl : cash' =
        (alookup s.participants_cash (participant_key body.game_id body.player_id)).getD
          g.starting_cash :=
      Option.some.inj (hcash'.symm.trans hcash1)
    rw [gocp_trades] at hpos'
    refine ⟨hpos', hbuy', heq, ?_⟩
    rw [heq, place_trade_exec_snd] at hok
    have := Except.ok.inj hok
    rw [← this, gocp_trade_id_seq]

/-! ## Claim C3 -/

/-- C3: In every reachable store, the derived position equals the sum of
BUY quantities minus the sum of SELL quantities of that participant's
trades in that ticker and is never negative; a SELL `place_trade` (with the
earlier validations passing) fails with `InsufficientPosition` exactly when
the requested quantity exceeds the current derived position, and then
appends no trade. -/
theorem C3_position_invariant (s : TradingState) (hs : Reachable s) :
    (∀ (pkey : String) (tid : Nat),
      position_quantity s.trades pkey tid =
        ((s.trades.filter (fun t =>
            decide (t.participant_key = pkey ∧ t.ticker_id = tid ∧ t.side = .BUY))).map
          Trade.quantity).sum -
        ((s.trades.filter (fun t =>
            decide (t.participant_key = pkey ∧ t.ticker_id = tid ∧ t.side = .SELL))).map
          Trade.quantity).sum ∧
      0 ≤ position_quantity s.trades pkey tid) ∧
    (∀ (now : Nat) (body : PlaceTradeRequest) (g : Game) (tid : Nat) (tk : Ticker)
        (snap : Snapshot),
      body.player_id ∈ s.profiles →
      alookup s.games body.game_id = some g →
      (g.status = .PENDING ∨ g.status = .IN_PROGRESS) →
      require_ticker s.sym_index s.tickers body.ticker_symbol = .ok (tid, tk) →
      latest_price s.price_snapshots body.game_id tid body.round_id = .ok snap →
      body.side = .SELL →
      (((place_trade s now body).2 = .error .insufficientPosition ↔
        position_quantity s.trades (participant_key body.game_id body.player_id) tid <
          body.quantity) ∧
      ((place_trade s now body).2 = .error .insufficientPosition →
        (place_trade s now body).1.trades = s.trades))) := by
  refine ⟨?_, ?_⟩
  · intro pkey tid
    exact ⟨position_quantity_eq_sum s.trades pkey tid,
      (reachable_storeInv hs).2.2.2.1 pkey tid⟩
  · intro now body g tid tk snap hp hg hstatus hrt hlp hsell
    have hrt1 : require_ticker
        (get_or_create_participant s body.game_id body.player_id g).sym_index
        (get_or_create_participant s body.game_id body.player_id g).tickers
        body.ticker_symbol = .ok (tid, tk) := by
      rw [gocp_sym_index, gocp_tickers]
      exact hrt
    have hlp1 : latest_price
        (get_or_create_participant s body.game_id body.player_id g).price_snapshots
        body.game_id tid body.round_id = .ok snap := by
      rw [gocp_price_snapshots]
      exact hlp
    rw [place_trade_core_eq hp hg hstatus]
    constructor
    · rw [place_trade_core_insufficient_position_iff hrt1 hlp1, gocp_trades]
      constructor
      · rintro ⟨-, hlt⟩
        linarith
      · intro hlt
        exact ⟨hsell, by linarith⟩
    · intro herr
      rw [place_trade_core_error_state herr, gocp_trades]

unseal Rat.mul Rat.add Rat.sub Rat.inv in
theorem C3_position_invariant_witness :
    (0:Decimal) ≤ position_quantity exS7.trades "1:user_1" 1 ∧
      (place_trade exS7 30 ⟨1, "user_1", "AAPL", .SELL, 7, none⟩).2 =
        .error .insufficientPosition ∧
      (place_trade exS7 30 ⟨1, "user_1", "AAPL", .SELL, 7, none⟩).1.trades = exS7.trades := by
  have h := C3_position_invariant exS7 reachable_exS7
  have h2 := h.2 30 ⟨1, "user_1", "AAPL", .SELL, 7, none⟩ ⟨.PENDING, 100000⟩ 1
    ⟨1, "AAPL", none, none⟩ ⟨2, 1, none, 1, 120, 12⟩
    (by decide) (by decide) (.inl rfl) (by decide) (by decide) rfl
  have herr := h2.1.mpr (by decide)
  exact ⟨(h.1 "1:user_1" 1).2, herr, h2.2 herr⟩

/-! ## Claim C4 -/

/-- C4: With the earlier validations passing, a BUY fails with
`InsufficientCash` exactly when the notional (execution price × quantity)
exceeds the participant's current (lazily initialized) cash balance; every
successful trade changes that participant's balance by exactly the
notional — subtracted on BUY, added on SELL, in exact rational arithmetic —
and leaves every other ledger balance unchanged. -/
theorem C4_cash_settlement (s : TradingState) (now : Nat) (body : PlaceTradeRequest)
    (g : Game) (tid : Nat) (tk : Ticker) (snap : Snapshot)
    (hp : body.player_id ∈ s.profiles)
    (hg : alookup s.games body.game_id = some g)
    (hstatus : g.status = .PENDING ∨ g.status = .IN_PROGRESS)
    (hrt : require_ticker s.sym_index s.tickers body.ticker_symbol = .ok (tid, tk))
    (hlp : latest_price s.price_snapshots body.game_id tid body.round_id = .ok snap) :
    (body.side = .BUY →
      ((place_trade s now body).2 = .error .insufficientCash ↔
        (alookup s.participants_cash (participant_key body.game_id body.player_id)).getD
          g.starting_cash < snap.price * body.quantity)) ∧
    (∀ row, (place_trade s now body).2 = .ok row →
      row.price = snap.price ∧
      alookup (place_trade s now body).1.participants_cash
          (participant_key body.game_id body.player_id) =
        some (if body.side = .BUY then
          (alookup s.participants_cash (participant_key body.game_id body.player_id)).getD
            g.starting_cash - snap.price * body.quantity
        else
          (alookup s.participants_cash (participant_key body.game_id body.player_id)).getD
            g.starting_cash + snap.price * body.quantity) ∧
      (∀ k, k ≠ participant_key body.game_id body.player_id →
        alookup (place_trade s now body).1.participants_cash k =
          alookup s.participants_cash k)) := by
  have hrt1 : require_ticker
      (get_or_create_participant s body.game_id body.player_id g).sym_index
      (get_or_create_participant s body.game_id body.player_id g).tickers
      body.ticker_symbol = .ok (tid, tk) := by
    rw [gocp_sym_index, gocp_tickers]
    exact hrt
  have hlp1 : latest_price
      (get_or_create_participant s body.game_id body.player_id g).price_snapshots
      body.game_id tid body.round_id = .ok snap := by
    rw [gocp_price_snapshots]
    exact hlp
  have hcash1 := gocp_lookup_self s body.game_id body.player_id g
  constructor
  · intro hbuy
    rw [place_trade_core_eq hp hg hstatus]
    rw [place_trade_core_insufficient_cash_iff hrt1 hlp1
      (by rintro ⟨hsell, -⟩; rw [hbuy] at hsell; exact absurd hsell (by simp)) hcash1]
    constructor
    · rintro ⟨-, hlt⟩
      exact hlt
    · intro hlt
      exact ⟨hbuy, hlt⟩
  · intro row hok
    obtain ⟨hpos, hbuy, heq, hrow⟩ := place_trade_success_effect hp hg hstatus hrt hlp hok
    refine ⟨by rw [hrow], ?_, ?_⟩
    · rw [heq, place_trade_exec_cash_self]
    · intro k hk
      rw [heq, place_trade_exec_cash_other _ _ _ _ _ _ _ hk,
        gocp_lookup_other _ _ _ _ _ hk]

unseal Rat.mul Rat.add Rat.sub Rat.inv in
theorem C4_cash_settlement_witness :
    (place_trade exS4 30 ⟨1, "user_1", "AAPL", .BUY, 2000, none⟩).2 =
        .error .insufficientCash ∧
      alookup (place_trade exS4 11 exBuy).1.participants_cash "1:user_1" =
        some ((100000 : Decimal) - 100 * 10) := by
  have hbig := (C4_cash_settlement exS4 30 ⟨1, "user_1", "AAPL", .BUY, 2000, none⟩
    ⟨.PENDING, 100000⟩ 1 ⟨1, "AAPL", none, none⟩ ⟨1, 1, none, 1, 100, 10⟩
    (by decide) (by decide) (.inl rfl) (by decide) (by decide)).1 rfl
  have hok := (C4_cash_settlement exS4 11 exBuy
    ⟨.PENDING, 100000⟩ 1 ⟨1, "AAPL", none, none⟩ ⟨1, 1, none, 1, 100, 10⟩
    (by decide) (by decide) (.inl rfl) (by decide) (by decide)).2
    ⟨1, 1, "1:user_1", none, 1, .BUY, 10, 100, 11⟩ (by decide)
  refine ⟨hbig.mpr (by decide), ?_⟩
  have := hok.2.1
  simpa using this

/-! ## Claim C9 -/

/-- C9: In every reachable store every ledger balance is non-negative;
lazy initialization sets a fresh participant's balance to the owning game's
starting cash, which is positive; and a successful trade keeps the trading
participant's balance non-negative (BUY commits only when the notional is
covered; SELL adds a non-negative credit). -/
theorem C9_cash_never_negative (s : TradingState) (hs : Reachable s) :
    (∀ kv ∈ s.participants_cash, 0 ≤ kv.2) ∧
    (∀ (gid : Nat) (pid : String) (g : Game), alookup s.games gid = some g →
      alookup (get_or_create_participant s gid pid g).participants_cash
          (participant_key gid pid) =
        some ((alookup s.participants_cash (participant_key gid pid)).getD
          g.starting_cash) ∧
      (alookup s.participants_cash (participant_key gid pid) = none →
        0 < g.starting_cash)) ∧
    (∀ (now : Nat) (body : PlaceTradeRequest), 0 < body.quantity →
      ∀ row, (place_trade s now body).2 = .ok row →
      ∀ kv ∈ (place_trade s now body).1.participants_cash, 0 ≤ kv.2) := by
  have hinv := reachable_storeInv hs
  refine ⟨hinv.2.2.1, ?_, ?_⟩
  · intro gid pid g hg
    exact ⟨gocp_lookup_self s gid pid g,
      fun _ => hinv.1 _ (alookup_mem hg)⟩
  · intro now body hqty row hok
    exact (storeInv_step hinv (Step.tradePlaced s now body hqty)).2.2.1

unseal Rat.mul Rat.add Rat.sub Rat.inv in
theorem C9_cash_never_negative_witness :
    ((0 : Decimal) ≤ ((100000 : Decimal) - 100 * 10)) ∧
      alookup (get_or_create_participant exS4 1 "user_1"
          ⟨.PENDING, 100000⟩).participants_cash "1:user_1" =
        some ((alookup exS4.participants_cash "1:user_1").getD 100000) := by
  have h5 := C9_cash_never_negative exS5 reachable_exS5
  have h4 := C9_cash_never_negative exS4 reachable_exS4
  exact ⟨h5.1 ("1:user_1", (100000 : Decimal) - 100 * 10) (by decide),
    (h4.2.1 1 "user_1" ⟨.PENDING, 100000⟩ (by decide)).1⟩

/-! ## Claim C2 -/

lemma gocp_of_isSome {s : TradingState} {gid : Nat} {pid : String} (g : Game)
    (h : (alookup s.participants_cash (participant_key gid pid)).isSome) :
    get_or_create_participant s gid pid g = s := by
  unfold get_or_create_participant
  rw [if_pos h]

lemma gocp_of_none {s : TradingState} {gid : Nat} {pid : String} (g : Game)
    (h : alookup s.participants_cash (participant_key gid pid) = none) :
    get_or_create_participant s gid pid g =
      { s with
          participants_cash :=
            aset s.participants_cash (participant_key gid pid) g.starting_cash } := by
  unfold get_or_create_participant
  rw [if_neg (by simp [h])]

/-- C2 (amended): a failing `place_trade` appends no trade and leaves the
ticker registry, the price snapshots, the directory and every pre-existing
ledger balance exactly as before; the one mutation that can survive a
failure is the lazy creation of the calling participant's ledger entry
(initialized to the game's starting cash), which happens before the ticker,
price, position and cash checks. -/
theorem C2_failure_no_mutation (s : TradingState) (now : Nat) (body : PlaceTradeRequest)
    (e : ApiError) (h : (place_trade s now body).2 = .error e) :
    (place_trade s now body).1.trades = s.trades ∧
    (place_trade s now body).1.trade_id_seq = s.trade_id_seq ∧
    (place_trade s now body).1.tickers = s.tickers ∧
    (place_trade s now body).1.sym_index = s.sym_index ∧
    (place_trade s now body).1.ticker_id_seq = s.ticker_id_seq ∧
    (place_trade s now body).1.price_snapshots = s.price_snapshots ∧
    (place_trade s now body).1.ps_id_seq = s.ps_id_seq ∧
    (place_trade s now body).1.profiles = s.profiles ∧
    (place_trade s now body).1.games = s.games ∧
    (∀ k c, alookup s.participants_cash k = some c →
      alookup (place_trade s now body).1.participants_cash k = some c) ∧
    (∀ k, k ≠ participant_key body.game_id body.player_id →
      alookup (place_trade s now body).1.participants_cash k =
        alookup s.participants_cash k) ∧
    ((place_trade s now body).1.participants_cash = s.participants_cash ∨
      (alookup s.participants_cash (participant_key body.game_id body.player_id) = none ∧
        ∃ g, alookup s.games body.game_id = some g ∧
          (place_trade s now body).1.participants_cash =
            aset s.participants_cash (participant_key body.game_id body.player_id)
              g.starting_cash)) := by
  rcases place_trade_error_state h with heq | ⟨g, hg, heq⟩
  · rw [heq]
    exact ⟨rfl, rfl, rfl, rfl, rfl, rfl, rfl, rfl, rfl,
      fun k c hc => hc, fun k _ => rfl, .inl rfl⟩
  · rw [heq]
    refine ⟨gocp_trades _ _ _ _, gocp_trade_id_seq _ _ _ _, gocp_tickers _ _ _ _,
      gocp_sym_index _ _ _ _, gocp_ticker_id_seq _ _ _ _, gocp_price_snapshots _ _ _ _,
      gocp_ps_id_seq _ _ _ _, gocp_profiles _ _ _ _, gocp_games _ _ _ _, ?_, ?_, ?_⟩
    · intro k c hc
      by_cases hk : k = participant_key body.game_id body.player_id
      · subst hk
        rw [gocp_of_isSome g (by rw [hc]; rfl)]
        exact hc
      · rw [gocp_lookup_other _ _ _ _ _ hk]
        exact hc
    · intro k hk
      exact gocp_lookup_other _ _ _ _ _ hk
    · cases hc : alookup s.participants_cash (participant_key body.game_id body.player_id) with
      | some c =>
        rw [gocp_of_isSome g (by rw [hc]; rfl)]
        exact .inl rfl
      | none =>
        rw [gocp_of_none g hc]
        exact .inr ⟨rfl, g, hg, rfl⟩

/-- C2 as frozen is false: a trade that fails `NotFound` on the ticker has
already created the participant's ledger entry, so the cash ledger (its key
set) changed. -/
theorem C2_failure_no_mutation_counterexample :
    (place_trade exS2 30 ⟨1, "user_1", "MSFT", .BUY, 1, none⟩).2 =
        .error .tickerNotFound ∧
      (place_trade exS2 30 ⟨1, "user_1", "MSFT", .BUY, 1, none⟩).1.participants_cash ≠
        exS2.participants_cash := by
  exact ⟨by decide, by decide⟩

theorem C2_failure_no_mutation_witness :
    (place_trade exS2 30 ⟨1, "user_1", "MSFT", .BUY, 1, none⟩).1.trades = exS2.trades ∧
      (place_trade exS2 30 ⟨1, "user_1", "MSFT", .BUY, 1, none⟩).1.tickers = exS2.tickers ∧
      (place_trade exS2 30 ⟨1, "user_1", "MSFT", .BUY, 1, none⟩).1.price_snapshots =
        exS2.price_snapshots :=
  ⟨(C2_failure_no_mutation exS2 30 ⟨1, "user_1", "MSFT", .BUY, 1, none⟩
      .tickerNotFound (by decide)).1,
    (C2_failure_no_mutation exS2 30 ⟨1, "user_1", "MSFT", .BUY, 1, none⟩
      .tickerNotFound (by decide)).2.2.1,
    (C2_failure_no_mutation exS2 30 ⟨1, "user_1", "MSFT", .BUY, 1, none⟩
      .tickerNotFound (by decide)).2.2.2.2.2.1⟩

instance : IsTotal Position symbol_asc :=
  ⟨fun a b => le_total a.symbol b.symbol⟩

instance : IsTrans Position symbol_asc :=
  ⟨fun _ _ _ hab hbc => le_trans hab hbc⟩

/-! ## Claim C7 -/

lemma list_trades_ok {s : TradingState} {game_id : Nat} {player_id : String}
    {round_id : Option Nat} {limit offset : Nat} {g : Game}
    (hp : player_id ∈ s.profiles) (hg : alookup s.games game_id = some g) :
    list_trades s game_id player_id round_id limit offset =
      (get_or_create_participant s game_id player_id g,
        .ok (((((s.trades.filter
            (trade_matches game_id (participant_key game_id player_id) round_id)).insertionSort
              executed_at_desc).drop offset).take limit).map
          (trade_list_item s.tickers))) := by
  simp only [list_trades]
  rw [if_neg (by simpa using hp), hg]
  simp only [gocp_trades, gocp_tickers]

/-- C7: with the player/game validations passing, `list_trades` returns
exactly the trades matching the game, participant and (when given) round,
stable-sorted by `executed_at` descending (ties keep insertion order) and
windowed by offset/limit; it never modifies the trade log, and calling it
again on the resulting store returns the identical ordered result. -/
theorem C7_list_trades_pagination (s : TradingState) (game_id : Nat) (player_id : String)
    (round_id : Option Nat) (limit offset : Nat) (g : Game)
    (hp : player_id ∈ s.profiles) (hg : alookup s.games game_id = some g) :
    (list_trades s game_id player_id round_id limit offset).2 =
      .ok (((((s.trades.filter
          (trade_matches game_id (participant_key game_id player_id) round_id)).insertionSort
            executed_at_desc).drop offset).take limit).map
        (trade_list_item s.tickers)) ∧
    (∀ t, t ∈ s.trades.filter
        (trade_matches game_id (participant_key game_id player_id) round_id) ↔
      t ∈ s.trades ∧ t.game_id = game_id ∧
        t.participant_key = participant_key game_id player_id ∧
        (round_id = none ∨ t.round_id = round_id)) ∧
    ((s.trades.filter
        (trade_matches game_id (participant_key game_id player_id) round_id)).insertionSort
          executed_at_desc).Perm
      (s.trades.filter (trade_matches game_id (participant_key game_id player_id) round_id)) ∧
    ((s.trades.filter
        (trade_matches game_id (participant_key game_id player_id) round_id)).insertionSort
          executed_at_desc).Pairwise executed_at_desc ∧
    (∀ a b, List.Sublist [a, b] (s.trades.filter
        (trade_matches game_id (participant_key game_id player_id) round_id)) →
      a.executed_at = b.executed_at →
      List.Sublist [a, b] ((s.trades.filter
        (trade_matches game_id (participant_key game_id player_id) round_id)).insertionSort
          executed_at_desc)) ∧
    (list_trades s game_id player_id round_id limit offset).1.trades = s.trades ∧
    list_trades (list_trades s game_id player_id round_id limit offset).1
        game_id player_id round_id limit offset =
      ((list_trades s game_id player_id round_id limit offset).1,
        (list_trades s game_id player_id round_id limit offset).2) := by
  rw [list_trades_ok hp hg]
  refine ⟨rfl, ?_, ?_, ?_, ?_, ?_, ?_⟩
  · intro t
    rw [List.mem_filter]
    unfold trade_matches
    rw [decide_eq_true_eq]
  · exact List.perm_insertionSort executed_at_desc _
  · exact List.sorted_insertionSort executed_at_desc _
  · intro a b hsub hts
    exact List.pair_sublist_insertionSort (le_of_eq hts.symm) hsub
  · exact gocp_trades _ _ _ _
  · have hp1 : player_id ∈ (get_or_create_participant s game_id player_id g).profiles := by
      rw [gocp_profiles]
      exact hp
    have hg1 : alookup (get_or_create_participant s game_id player_id g).games game_id =
        some g := by
      rw [gocp_games]
      exact hg
    rw [list_trades_ok hp1 hg1]
    rw [gocp_of_isSome g (gocp_lookup_isSome s game_id player_id g)]
    rw [gocp_trades, gocp_tickers]

unseal Rat.mul Rat.add Rat.sub Rat.inv in
theorem C7_list_trades_pagination_witness :
    (list_trades exS7 1 "user_1" none 50 0).2 =
        .ok [⟨2, none, "AAPL", .SELL, 4, 120, 13⟩, ⟨1, none, "AAPL", .BUY, 10, 100, 11⟩] ∧
      (list_trades exS7 1 "user_1" none 50 0).1.trades = exS7.trades := by
  have h := C7_list_trades_pagination exS7 1 "user_1" none 50 0 ⟨.PENDING, 100000⟩
    (by decide) (by decide)
  refine ⟨?_, h.2.2.2.2.2.1⟩
  rw [h.1]
  decide

/-! ## `build_lots` characterization -/

/-- The per-trade update `get_portfolio` applies to a lot. -/
def lot_apply (l : Lot) (t : Trade) : Lot :=
  match t.side with
  | .BUY => ⟨l.qty + t.quantity, l.buy_cost + t.quantity * t.price⟩
  | .SELL => ⟨l.qty - t.quantity, l.buy_cost⟩

/-- The filter selecting the trades that feed ticker `tid`'s lot. -/
def lot_trade (game_id : Nat) (pkey : String) (tid : Nat) (t : Trade) : Bool :=
  decide (t.game_id = game_id ∧ t.participant_key = pkey ∧ t.ticker_id = tid)

lemma lots_step_eq (game_id : Nat) (pkey : String) (acc : List (Nat × Lot)) (t : Trade) :
    lots_step game_id pkey acc t =
      if t.game_id = game_id ∧ t.participant_key = pkey then
        aset acc t.ticker_id (lot_apply ((alookup acc t.ticker_id).getD ⟨0, 0⟩) t)
      else acc := by
  cases hts : t.side <;> simp [lots_step, lot_apply, hts]

lemma alookup_foldl_lots (game_id : Nat) (pkey : String) (tid : Nat) :
    ∀ (ts : List Trade) (acc : List (Nat × Lot)),
      alookup (ts.foldl (lots_step game_id pkey) acc) tid =
        if ts.filter (lot_trade game_id pkey tid) = [] then alookup acc tid
        else some ((ts.filter (lot_trade game_id pkey tid)).foldl lot_apply
          ((alookup acc tid).getD ⟨0, 0⟩))
  | [], acc => by simp
  | t :: ts, acc => by
    rw [List.foldl_cons, lots_step_eq]
    by_cases hrel : t.game_id = game_id ∧ t.participant_key = pkey
    · rw [if_pos hrel]
      by_cases htid : t.ticker_id = tid
      · subst htid
        have hp3 : lot_trade game_id pkey t.ticker_id t = true := by
          simp [lot_trade, hrel.1, hrel.2]
        rw [List.filter_cons_of_pos hp3,
          if_neg (show ¬(t :: ts.filter (lot_trade game_id pkey t.ticker_id) = []) by simp),
          alookup_foldl_lots game_id pkey t.ticker_id ts
            (aset acc t.ticker_id
              (lot_apply ((alookup acc t.ticker_id).getD ⟨0, 0⟩) t)),
          alookup_aset,
          if_pos (show t.ticker_id = t.ticker_id from rfl), List.foldl_cons]
        by_cases hrest : ts.filter (lot_trade game_id pkey t.ticker_id) = []
        · rw [if_pos hrest, hrest]
          rfl
        · rw [if_neg hrest]
          rfl
      · have hp3 : ¬lot_trade game_id pkey tid t = true := by
          simp [lot_trade, htid]
        rw [List.filter_cons_of_neg hp3,
          alookup_foldl_lots game_id pkey tid ts
            (aset acc t.ticker_id
              (lot_apply ((alookup acc t.ticker_id).getD ⟨0, 0⟩) t)),
          alookup_aset,
          if_neg (show ¬tid = t.ticker_id from fun h => htid h.symm)]
    · rw [if_neg hrel]
      have hp3 : ¬lot_trade game_id pkey tid t = true := by
        simp only [lot_trade, decide_eq_true_eq]
        rintro ⟨h1, h2, -⟩
        exact hrel ⟨h1, h2⟩
      rw [List.filter_cons_of_neg hp3]
      exact alookup_foldl_lots game_id pkey tid ts acc

lemma alookup_build_lots (ts : List Trade) (game_id : Nat) (pkey : String) (tid : Nat) :
    alookup (build_lots ts game_id pkey) tid =
      if ts.filter (lot_trade game_id pkey tid) = [] then none
      else some ((ts.filter (lot_trade game_id pkey tid)).foldl lot_apply ⟨0, 0⟩) := by
  unfold build_lots
  rw [alookup_foldl_lots]
  rfl

lemma lot_foldl_qty (rel : List Trade) : ∀ l : Lot,
    (rel.foldl lot_apply l).qty =
      l.qty + ((rel.filter (fun t => decide (t.side = .BUY))).map Trade.quantity).sum -
        ((rel.filter (fun t => decide (t.side = .SELL))).map Trade.quantity).sum := by
  induction rel with
  | nil => intro l; simp
  | cons t rel ih =>
    intro l
    rw [List.foldl_cons, ih]
    cases hts : t.side with
    | BUY =>
      rw [List.filter_cons_of_pos (by simp [hts]), List.filter_cons_of_neg (by simp [hts])]
      simp only [lot_apply, hts, List.map_cons, List.sum_cons]
      ring
    | SELL =>
      rw [List.filter_cons_of_neg (by simp [hts]), List.filter_cons_of_pos (by simp [hts])]
      simp only [lot_apply, hts, List.map_cons, List.sum_cons]
      ring

lemma lot_foldl_buy_cost (rel : List Trade) : ∀ l : Lot,
    (rel.foldl lot_apply l).buy_cost =
      l.buy_cost + ((rel.filter (fun t => decide (t.side = .BUY))).map
        (fun t => t.quantity * t.price)).sum := by
  induction rel with
  | nil => intro l; simp
  | cons t rel ih =>
    intro l
    rw [List.foldl_cons, ih]
    cases hts : t.side with
    | BUY =>
      rw [List.filter_cons_of_pos (by simp [hts])]
      simp only [lot_apply, hts, List.map_cons, List.sum_cons]
      ring
    | SELL =>
      rw [List.filter_cons_of_neg (by simp [hts])]
      simp only [lot_apply, hts]

lemma mem_map_fst_aset {K V : Type} [DecidableEq K] {m : List (K × V)} {k x : K} {v : V}
    (h : x ∈ (aset m k v).map Prod.fst) : x = k ∨ x ∈ m.map Prod.fst := by
  obtain ⟨kv, hkv, rfl⟩ := List.mem_map.mp h
  rcases mem_aset hkv with rfl | hm
  · exact .inl rfl
  · exact .inr (List.mem_map_of_mem Prod.fst hm)

lemma aset_map_fst_nodup {K V : Type} [DecidableEq K] :
    ∀ {m : List (K × V)}, (m.map Prod.fst).Nodup → ∀ (k : K) (v : V),
      ((aset m k v).map Prod.fst).Nodup
  | [], _, k, v => by simp [aset]
  | (k₀, v₀) :: rest, h, k, v => by
    rw [List.map_cons, List.nodup_cons] at h
    by_cases h₀ : k₀ = k
    · subst h₀
      simp only [aset]
      rw [if_pos trivial]
      simp only [List.map_cons, List.nodup_cons]
      exact h
    · simp only [aset, if_neg h₀, List.map_cons, List.nodup_cons]
      refine ⟨fun hmem => ?_, aset_map_fst_nodup h.2 k v⟩
      rcases mem_map_fst_aset hmem with rfl | hm
      · exact h₀ rfl
      · exact h.1 hm

lemma alookup_of_mem_nodup {K V : Type} [DecidableEq K] :
    ∀ {m : List (K × V)}, (m.map Prod.fst).Nodup → ∀ {kv : K × V}, kv ∈ m →
      alookup m kv.1 = some kv.2
  | [], _, _, hm => absurd hm (by simp)
  | kv₀ :: rest, h, kv, hm => by
    rw [List.map_cons, List.nodup_cons] at h
    rcases List.mem_cons.mp hm with rfl | hm'
    · rw [alookup_cons, if_pos rfl]
    · have hne : kv₀.1 ≠ kv.1 := by
        intro he
        exact h.1 (he ▸ List.mem_map_of_mem Prod.fst hm')
      rw [alookup_cons, if_neg hne]
      exact alookup_of_mem_nodup h.2 hm'

lemma foldl_lots_keys_nodup (game_id : Nat) (pkey : String) :
    ∀ (ts : List Trade) (acc : List (Nat × Lot)), (acc.map Prod.fst).Nodup →
      ((ts.foldl (lots_step game_id pkey) acc).map Prod.fst).Nodup
  | [], acc, h => h
  | t :: ts, acc, h => by
    rw [List.foldl_cons, lots_step_eq]
    split_ifs with hrel
    · exact foldl_lots_keys_nodup game_id pkey ts _ (aset_map_fst_nodup h _ _)
    · exact foldl_lots_keys_nodup game_id pkey ts acc h

lemma build_lots_keys_nodup (ts : List Trade) (game_id : Nat) (pkey : String) :
    ((build_lots ts game_id pkey).map Prod.fst).Nodup :=
  foldl_lots_keys_nodup game_id pkey ts [] (by simp)

lemma mem_foldl_lots_tid (game_id : Nat) (pkey : String) :
    ∀ (ts : List Trade) (acc : List (Nat × Lot)) (kv : Nat × Lot),
      kv ∈ ts.foldl (lots_step game_id pkey) acc →
      kv ∈ acc ∨ ∃ t ∈ ts, t.ticker_id = kv.1
  | [], acc, kv, h => .inl h
  | t :: ts, acc, kv, h => by
    rw [List.foldl_cons, lots_step_eq] at h
    split_ifs at h with hrel
    · rcases mem_foldl_lots_tid game_id pkey ts _ kv h with hacc | ⟨t', ht', he⟩
      · rcases mem_aset hacc with rfl | hm
        · exact .inr ⟨t, List.mem_cons_self t ts, rfl⟩
        · exact .inl hm
      · exact .inr ⟨t', List.mem_cons_of_mem t ht', he⟩
    · rcases mem_foldl_lots_tid game_id pkey ts acc kv h with hacc | ⟨t', ht', he⟩
      · exact .inl hacc
      · exact .inr ⟨t', List.mem_cons_of_mem t ht', he⟩

lemma mem_build_lots_tid {ts : List Trade} {game_id : Nat} {pkey : String}
    {kv : Nat × Lot} (h : kv ∈ build_lots ts game_id pkey) :
    ∃ t ∈ ts, t.ticker_id = kv.1 := by
  rcases mem_foldl_lots_tid game_id pkey ts [] kv h with habs | hgood
  · exact absurd habs (by simp)
  · exact hgood

lemma build_positions_ok (snaps : List Snapshot) (tks : List (Nat × Ticker)) (g : Nat) :
    ∀ (lots : List (Nat × Lot)) (acc : List Position × Decimal × Decimal)
      (ps : List Position) (ut eqy : Decimal),
      build_positions snaps tks g lots acc = .ok (ps, ut, eqy) →
      ∃ qs : List Position,
        ps = acc.1 ++ qs ∧
        ut = acc.2.1 + (qs.map Position.unrealized_pnl).sum ∧
        eqy = acc.2.2 + (qs.map Position.market_value).sum ∧
        (∀ pos ∈ qs, ∃ agg snap tk,
          (pos.ticker_id, agg) ∈ lots ∧ agg.qty ≠ 0 ∧
          latest_price snaps g pos.ticker_id none = .ok snap ∧
          alookup tks pos.ticker_id = some tk ∧
          pos = ⟨pos.ticker_id, tk.symbol, agg.qty, agg.buy_cost / agg.qty, snap.price,
            agg.qty * snap.price, (snap.price - agg.buy_cost / agg.qty) * agg.qty⟩) ∧
        (∀ tid agg, (tid, agg) ∈ lots → agg.qty ≠ 0 → ∃ pos ∈ qs, pos.ticker_id = tid)
  | [], acc, ps, ut, eqy, h => by
    have hacc := Except.ok.inj h
    subst hacc
    exact ⟨[], by simp, by simp, by simp, by simp, by simp⟩
  | (tid, agg) :: rest, acc, ps, ut, eqy, h => by
    unfold build_positions at h
    split_ifs at h with hq
    · obtain ⟨qs, h1, h2, h3, h4, h5⟩ := build_positions_ok snaps tks g rest acc ps ut eqy h
      refine ⟨qs, h1, h2, h3, ?_, ?_⟩
      · intro pos hpos
        obtain ⟨agg', snap, tk, hmem, hq', hlp, htk, hval⟩ := h4 pos hpos
        exact ⟨agg', snap, tk, List.mem_cons_of_mem _ hmem, hq', hlp, htk, hval⟩
      · intro tid' agg' hmem hq'
        rcases List.mem_cons.mp hmem with he | hmem'
        · obtain ⟨rfl, rfl⟩ : tid' = tid ∧ agg' = agg := by
            exact ⟨congrArg Prod.fst he, congrArg Prod.snd he⟩
          exact absurd hq hq'
        · exact h5 tid' agg' hmem' hq'
    · revert h
      cases hlp : latest_price snaps g tid none with
      | error e => intro h; exact absurd h (by simp)
      | ok snap =>
        cases htk : alookup tks tid with
        | none => intro h; exact absurd h (by simp)
        | some tk =>
          intro h
          obtain ⟨qs', h1, h2, h3, h4, h5⟩ := build_positions_ok snaps tks g rest _ ps ut eqy h
          refine ⟨⟨tid, tk.symbol, agg.qty, agg.buy_cost / agg.qty, snap.price,
            agg.qty * snap.price, (snap.price - agg.buy_cost / agg.qty) * agg.qty⟩ :: qs',
            ?_, ?_, ?_, ?_, ?_⟩
          · rw [h1]
            simp
          · rw [h2]
            dsimp only
            simp only [List.map_cons, List.sum_cons]
            ring
          · rw [h3]
            dsimp only
            simp only [List.map_cons, List.sum_cons]
            ring
          · intro pos hpos
            rcases List.mem_cons.mp hpos with rfl | hpos'
            · exact ⟨agg, snap, tk, List.mem_cons_self _ _, hq, hlp, htk, rfl⟩
            · obtain ⟨agg', snap', tk', hmem, hq', hlp', htk', hval⟩ := h4 pos hpos'
              exact ⟨agg', snap', tk', List.mem_cons_of_mem _ hmem, hq', hlp', htk', hval⟩
          · intro tid' agg' hmem hq'
            rcases List.mem_cons.mp hmem with he | hmem'
            · obtain ⟨rfl, rfl⟩ : tid' = tid ∧ agg' = agg :=
                ⟨congrArg Prod.fst he, congrArg Prod.snd he⟩
              exact ⟨_, List.mem_cons_self _ _, rfl⟩
            · obtain ⟨pos, hpos, hptid⟩ := h5 tid' agg' hmem' hq'
              exact ⟨pos, List.mem_cons_of_mem _ hpos, hptid⟩

lemma build_positions_error (snaps : List Snapshot) (tks : List (Nat × Ticker)) (g : Nat) :
    ∀ (lots : List (Nat × Lot)) (acc : List Position × Decimal × Decimal),
      (∀ kv ∈ lots, (kv : Nat × Lot).2.qty ≠ 0 → (alookup tks kv.1).isSome) →
      ∀ {e : ApiError}, build_positions snaps tks g lots acc = .error e →
        e = .noPriceAvailable ∧
          ∃ tid agg, (tid, agg) ∈ lots ∧ agg.qty ≠ 0 ∧
            ∀ row ∈ snaps, ¬snap_match2 g tid row = true
  | [], acc, htk, e, h => absurd h (by simp [build_positions])
  | (tid, agg) :: rest, acc, htk, e, h => by
    unfold build_positions at h
    split_ifs at h with hq
    · obtain ⟨he, tid', agg', hmem, hq', hall⟩ :=
        build_positions_error snaps tks g rest acc
          (fun kv hkv => htk kv (List.mem_cons_of_mem _ hkv)) h
      exact ⟨he, tid', agg', List.mem_cons_of_mem _ hmem, hq', hall⟩
    · revert h
      cases hlp : latest_price snaps g tid none with
      | error e' =>
        intro h
        obtain rfl : e' = e := by injection h
        obtain ⟨he, hall⟩ := (latest_price_error_iff _ _ _ _ _).mp hlp
        exact ⟨he, tid, agg, List.mem_cons_self _ _, hq, hall⟩
      | ok snap =>
        cases htk' : alookup tks tid with
        | none =>
          have := htk (tid, agg) (List.mem_cons_self _ _) hq
          rw [htk'] at this
          exact absurd this (by simp)
        | some tk =>
          intro h
          obtain ⟨he, tid', agg', hmem, hq', hall⟩ :=
            build_positions_error snaps tks g rest _
              (fun kv hkv => htk kv (List.mem_cons_of_mem _ hkv)) h
          exact ⟨he, tid', agg', List.mem_cons_of_mem _ hmem, hq', hall⟩

/-! ## Claim C6 -/

lemma get_portfolio_run {s : TradingState} {game_id : Nat} {player_id : String} {g : Game}
    (hp : player_id ∈ s.profiles) (hg : alookup s.games game_id = some g) :
    get_portfolio s game_id player_id =
      (get_or_create_participant s game_id player_id g,
        match build_positions s.price_snapshots s.tickers game_id
            (build_lots s.trades game_id (participant_key game_id player_id))
            ([], 0, (alookup s.participants_cash
              (participant_key game_id player_id)).getD g.starting_cash) with
        | .error e => .error e
        | .ok (ps, unreal_total, equity) =>
          .ok ⟨(alookup s.participants_cash
              (participant_key game_id player_id)).getD g.starting_cash,
            ps.insertionSort symbol_asc, equity, unreal_total⟩) := by
  simp only [get_portfolio]
  rw [if_neg (by simpa using hp), hg]
  simp only [gocp_lookup_self, gocp_trades, gocp_tickers, gocp_price_snapshots]
  cases hbp : build_positions s.price_snapshots s.tickers game_id
      (build_lots s.trades game_id (participant_key game_id player_id))
      ([], 0, (alookup s.participants_cash
        (participant_key game_id player_id)).getD g.starting_cash) with
  | error e => rfl
  | ok out =>
    obtain ⟨ps, ut, eqy⟩ := out
    rfl

/-- C6: `get_portfolio` (with player/game validations passing) omits tickers
with zero net quantity; each remaining held ticker is priced by the latest
game-wide snapshot ignoring rounds, and the whole computation fails with
`NoPriceAvailable` (and with no other error) exactly when some held ticker
has no snapshot in the game; each position carries
`market_value = quantity × price` and
`unrealized_pnl = (price − average_cost) × quantity`,
`equity = cash + Σ market_value`, `unrealized_pnl_total = Σ unrealized_pnl`,
and positions are sorted by symbol ascending. -/
theorem C6_portfolio_valuation (s : TradingState) (hs : Reachable s) (game_id : Nat)
    (player_id : String) (g : Game)
    (hp : player_id ∈ s.profiles) (hg : alookup s.games game_id = some g) :
    (∀ tid agg,
      (tid, agg) ∈ build_lots s.trades game_id (participant_key game_id player_id) →
      agg.qty =
        (((s.trades.filter (lot_trade game_id (participant_key game_id player_id) tid)).filter
            (fun t => decide (t.side = .BUY))).map Trade.quantity).sum -
        (((s.trades.filter (lot_trade game_id (participant_key game_id player_id) tid)).filter
            (fun t => decide (t.side = .SELL))).map Trade.quantity).sum ∧
      agg.buy_cost =
        (((s.trades.filter (lot_trade game_id (participant_key game_id player_id) tid)).filter
            (fun t => decide (t.side = .BUY))).map (fun t => t.quantity * t.price)).sum) ∧
    ((get_portfolio s game_id player_id).2 = .error .noPriceAvailable ↔
      ∃ tid agg,
        (tid, agg) ∈ build_lots s.trades game_id (participant_key game_id player_id) ∧
        agg.qty ≠ 0 ∧ ∀ row ∈ s.price_snapshots, ¬snap_match2 game_id tid row = true) ∧
    (∀ e, (get_portfolio s game_id player_id).2 = .error e → e = .noPriceAvailable) ∧
    (∀ P, (get_portfolio s game_id player_id).2 = .ok P →
      P.cash_balance =
        (alookup s.participants_cash (participant_key game_id player_id)).getD
          g.starting_cash ∧
      (∀ pos ∈ P.positions, ∃ agg snap,
        (pos.ticker_id, agg) ∈
          build_lots s.trades game_id (participant_key game_id player_id) ∧
        agg.qty ≠ 0 ∧
        latest_price s.price_snapshots game_id pos.ticker_id none = .ok snap ∧
        pos.quantity = agg.qty ∧
        pos.avg_price = agg.buy_cost / agg.qty ∧
        pos.market_price = snap.price ∧
        pos.market_value = agg.qty * snap.price ∧
        pos.unrealized_pnl = (snap.price - agg.buy_cost / agg.qty) * agg.qty) ∧
      (∀ tid agg,
        (tid, agg) ∈ build_lots s.trades game_id (participant_key game_id player_id) →
        agg.qty ≠ 0 → ∃ pos ∈ P.positions, pos.ticker_id = tid) ∧
      (∀ pos ∈ P.positions, pos.quantity ≠ 0) ∧
      P.equity = P.cash_balance + (P.positions.map Position.market_value).sum ∧
      P.unrealized_pnl_total = (P.positions.map Position.unrealized_pnl).sum ∧
      P.positions.Pairwise symbol_asc) := by
  have htt : TradesTickersOk s := (reachable_storeInv hs).2.2.2.2.2.2
  have htklots : ∀ kv ∈ build_lots s.trades game_id (participant_key game_id player_id),
      (kv : Nat × Lot).2.qty ≠ 0 → (alookup s.tickers kv.1).isSome := by
    intro kv hkv _
    obtain ⟨t, ht, he⟩ := mem_build_lots_tid hkv
    exact he ▸ htt t ht
  refine ⟨?_, ?_⟩
  · intro tid agg hmem
    have hlk := alookup_of_mem_nodup
      (build_lots_keys_nodup s.trades game_id (participant_key game_id player_id))
      hmem
    rw [alookup_build_lots] at hlk
    split_ifs at hlk with hnil
    have hagg := Option.some.inj hlk
    dsimp only at hagg
    constructor
    · rw [← hagg, lot_foldl_qty]
      simp
    · rw [← hagg, lot_foldl_buy_cost]
      simp
  rw [get_portfolio_run hp hg]
  cases hbp : build_positions s.price_snapshots s.tickers game_id
      (build_lots s.trades game_id (participant_key game_id player_id))
      ([], 0, (alookup s.participants_cash
        (participant_key game_id player_id)).getD g.starting_cash) with
  | error e =>
    obtain ⟨rfl, hex⟩ := build_positions_error s.price_snapshots s.tickers game_id
      (build_lots s.trades game_id (participant_key game_id player_id)) _ htklots hbp
    refine ⟨iff_of_true rfl hex, ?_, ?_⟩
    · intro e' he'
      injection he' with h'
      exact h'.symm
    · intro P hP
      exact absurd hP (by simp)
  | ok out =>
    obtain ⟨ps, ut, eqy⟩ := out
    obtain ⟨qs, hps, hut, heqy, h4, h5⟩ := build_positions_ok s.price_snapshots s.tickers
      game_id (build_lots s.trades game_id (participant_key game_id player_id)) _ ps ut eqy hbp
    rw [List.nil_append] at hps
    subst hps
    refine ⟨?_, ?_, ?_⟩
    · refine iff_of_false (by simp) ?_
      rintro ⟨tid, agg, hmem, hq, hall⟩
      obtain ⟨pos, hpos, rfl⟩ := h5 tid agg hmem hq
      obtain ⟨agg', snap, tk, -, -, hlp, -, -⟩ := h4 pos hpos
      rw [(latest_price_error_iff s.price_snapshots game_id pos.ticker_id none
        .noPriceAvailable).mpr ⟨rfl, hall⟩] at hlp
      exact absurd hlp (by simp)
    · intro e' he'
      exact absurd he' (by simp)
    · intro P hP
      obtain rfl : (⟨(alookup s.participants_cash
          (participant_key game_id player_id)).getD g.starting_cash,
          ps.insertionSort symbol_asc, eqy, ut⟩ : PortfolioResponse) = P :=
        Except.ok.inj hP
      refine ⟨rfl, ?_, ?_, ?_, ?_, ?_, ?_⟩
      · intro pos hpos
        have hpos' : pos ∈ ps := (List.mem_insertionSort symbol_asc).mp hpos
        obtain ⟨agg, snap, tk, hmem, hq, hlp, htk, hval⟩ := h4 pos hpos'
        exact ⟨agg, snap, hmem, hq, hlp, by rw [hval], by rw [hval], by rw [hval],
          by rw [hval], by rw [hval]⟩
      · intro tid agg hmem hq
        obtain ⟨pos, hpos, hid⟩ := h5 tid agg hmem hq
        exact ⟨pos, (List.mem_insertionSort symbol_asc).mpr hpos, hid⟩
      · intro pos hpos
        have hpos' : pos ∈ ps := (List.mem_insertionSort symbol_asc).mp hpos
        obtain ⟨agg, snap, tk, hmem, hq, hlp, htk, hval⟩ := h4 pos hpos'
        rw [hval]
        exact hq
      · have hsum := ((List.perm_insertionSort symbol_asc ps).map
          Position.market_value).sum_eq
        dsimp only
        rw [heqy, hsum]
      · have hsum := ((List.perm_insertionSort symbol_asc ps).map
          Position.unrealized_pnl).sum_eq
        dsimp only
        rw [hut, hsum]
        simp
      · exact List.sorted_insertionSort symbol_asc ps

unseal Rat.mul Rat.add Rat.sub Rat.inv in
theorem C6_portfolio_valuation_witness :
    (⟨99480, [⟨1, "AAPL", 6, 500/3, 120, 720, -280⟩], 100200, -280⟩ :
        PortfolioResponse).equity =
      (⟨99480, [⟨1, "AAPL", 6, 500/3, 120, 720, -280⟩], 100200, -280⟩ :
          PortfolioResponse).cash_balance +
        (((⟨99480, [⟨1, "AAPL", 6, 500/3, 120, 720, -280⟩], 100200, -280⟩ :
            PortfolioResponse).positions).map Position.market_value).sum ∧
      ((⟨99480, [⟨1, "AAPL", 6, 500/3, 120, 720, -280⟩], 100200, -280⟩ :
          PortfolioResponse).positions).Pairwise symbol_asc := by
  have h := C6_portfolio_valuation exS7 reachable_exS7 1 "user_1" ⟨.PENDING, 100000⟩
    (by decide) (by decide)
  have hok := h.2.2.2 ⟨99480, [⟨1, "AAPL", 6, 500/3, 120, 720, -280⟩], 100200, -280⟩
    (by decide)
  exact ⟨hok.2.2.2.2.1, hok.2.2.2.2.2.2⟩

/-! ## Claim C1 -/

/-- C1 (amended): after exactly one BUY of `10 @ 100` and one SELL of
`4 @ 120` of a ticker (and no other trades of that ticker for this
participant and game), a successful `get_portfolio` reports position
quantity `6` for it but average cost `1000/6` — the buy cost `1000` divided
by the NET quantity, not the claimed `100` — with market value `6 × price`
and unrealized P&L `(price − 1000/6) × 6` against the latest price. -/
theorem C1_scenario_e_portfolio (s : TradingState) (game_id : Nat) (player_id : String)
    (g : Game) (tid : Nat) (t1 t2 : Trade) (snap : Snapshot) (P : PortfolioResponse)
    (hp : player_id ∈ s.profiles) (hg : alookup s.games game_id = some g)
    (hfilter : s.trades.filter (lot_trade game_id (participant_key game_id player_id) tid) =
      [t1, t2])
    (ht1 : t1.side = .BUY ∧ t1.quantity = 10 ∧ t1.price = 100)
    (ht2 : t2.side = .SELL ∧ t2.quantity = 4 ∧ t2.price = 120)
    (hlp : latest_price s.price_snapshots game_id tid none = .ok snap)
    (hP : (get_portfolio s game_id player_id).2 = .ok P) :
    ∃ pos ∈ P.positions, pos.ticker_id = tid ∧ pos.quantity = 6 ∧
      pos.avg_price = 1000 / 6 ∧ pos.market_price = snap.price ∧
      pos.market_value = 6 * snap.price ∧
      pos.unrealized_pnl = (snap.price - 1000 / 6) * 6 := by
  have hagg : alookup (build_lots s.trades game_id (participant_key game_id player_id)) tid =
      some ⟨6, 1000⟩ := by
    rw [alookup_build_lots, hfilter]
    rw [if_neg (by simp)]
    obtain ⟨hs1, hq1, hp1⟩ := ht1
    obtain ⟨hs2, hq2, hp2⟩ := ht2
    simp only [List.foldl_cons, List.foldl_nil, lot_apply, hs1, hs2, hq1, hq2, hp1, hp2]
    norm_num
  have hmem : (tid, (⟨6, 1000⟩ : Lot)) ∈
      build_lots s.trades game_id (participant_key game_id player_id) :=
    alookup_mem hagg
  rw [get_portfolio_run hp hg] at hP
  revert hP
  cases hbp : build_positions s.price_snapshots s.tickers game_id
      (build_lots s.trades game_id (participant_key game_id player_id))
      ([], 0, (alookup s.participants_cash
        (participant_key game_id player_id)).getD g.starting_cash) with
  | error e => intro hP; exact absurd hP (by simp)
  | ok out =>
    obtain ⟨ps, ut, eqy⟩ := out
    intro hP
    obtain ⟨qs, hps, hut, heqy, h4, h5⟩ := build_positions_ok s.price_snapshots s.tickers
      game_id (build_lots s.trades game_id (participant_key game_id player_id)) _ ps ut eqy hbp
    rw [List.nil_append] at hps
    subst hps
    obtain rfl : (⟨(alookup s.participants_cash
        (participant_key game_id player_id)).getD g.starting_cash,
        ps.insertionSort symbol_asc, eqy, ut⟩ : PortfolioResponse) = P :=
      Except.ok.inj hP
    obtain ⟨pos, hpos, hid⟩ := h5 tid ⟨6, 1000⟩ hmem (by norm_num)
    obtain ⟨agg', snap', tk, hmem', hq', hlp', htk', hval⟩ := h4 pos hpos
    obtain rfl : agg' = ⟨6, 1000⟩ := by
      have h9 := alookup_of_mem_nodup
        (build_lots_keys_nodup s.trades game_id (participant_key game_id player_id)) hmem'
      dsimp only at h9
      rw [hid, hagg] at h9
      exact (Option.some.inj h9).symm
    obtain rfl : snap' = snap := by
      rw [hid] at hlp'
      exact Except.ok.inj (hlp'.symm.trans hlp)
    refine ⟨pos, (List.mem_insertionSort symbol_asc).mpr hpos, hid, ?_, ?_, ?_, ?_, ?_⟩ <;>
      rw [hval]

unseal Rat.mul Rat.add Rat.sub Rat.inv in
/-- C1 as frozen is false: in the concrete Scenario E run (BUY `10 @ 100`,
then SELL `4 @ 120`), `get_portfolio` reports average cost `500/3` (that is,
`1000/6`), not `100`. -/
theorem C1_scenario_e_portfolio_counterexample :
    (get_portfolio exS7 1 "user_1").2 =
        .ok ⟨99480, [⟨1, "AAPL", 6, 500/3, 120, 720, -280⟩], 100200, -280⟩ ∧
      ¬((500 : Decimal) / 3 = 100) := by
  refine ⟨by decide, fun h => ?_⟩
  norm_num at h

unseal Rat.mul Rat.add Rat.sub Rat.inv in
theorem C1_scenario_e_portfolio_witness :
    ∃ pos ∈ (⟨99480, [⟨1, "AAPL", 6, 500/3, 120, 720, -280⟩], 100200, -280⟩ :
        PortfolioResponse).positions,
      pos.ticker_id = 1 ∧ pos.quantity = 6 ∧ pos.avg_price = 1000 / 6 ∧
      pos.market_price = (⟨2, 1, none, 1, 120, 12⟩ : Snapshot).price ∧
      pos.market_value = 6 * (⟨2, 1, none, 1, 120, 12⟩ : Snapshot).price ∧
      pos.unrealized_pnl = ((⟨2, 1, none, 1, 120, 12⟩ : Snapshot).price - 1000 / 6) * 6 :=
  C1_scenario_e_portfolio exS7 1 "user_1" ⟨.PENDING, 100000⟩ 1
    ⟨1, 1, "1:user_1", none, 1, .BUY, 10, 100, 11⟩
    ⟨2, 1, "1:user_1", none, 1, .SELL, 4, 120, 13⟩
    ⟨2, 1, none, 1, 120, 12⟩
    ⟨99480, [⟨1, "AAPL", 6, 500/3, 120, 720, -280⟩], 100200, -280⟩
    (by decide) (by decide) (by decide) (by decide) (by decide) (by decide) (by decide)
